import Mathlib

/-!
Verification of the multi-part publishing subsystem

A shallow embedding of the repository's multi-part publishing code
(content splitter, dual-hash engine, manifest mutation, posting pipeline,
resume verifier) together with proofs about the embedded definitions.

Modelling conventions:
* JavaScript strings are modelled as `List Char` (`Str`).  Positions are
  code-point indices; the source uses UTF-16 code-unit indices, but every
  routine below indexes, slices and searches in one consistent index space,
  so the algorithms are position-space agnostic.
* `TextEncoder().encode(s).length` is the UTF-8 byte length `utf8Len`.
* `Math.ceil(n * 0.03)` is modelled as the exact rational ceiling
  `⌈3n/100⌉ = (3n + 99) / 100`.
* Fallible code returns `Except Str α`; a thrown `Error(msg)` is `.error msg`.
* External collaborators (the Web Crypto / blakejs / md5 digest libraries,
  the network transport and the ledger-query function `getHiveContent`) are
  not part of this repository and are modelled as function parameters.
* `new Date().toISOString()` is modelled as an explicit `now` parameter.
-/

abbrev Str := List Char

/-- UTF-8 encoded size of a single code point (1 to 4 bytes). -/
def utf8CharBytes (c : Char) : Nat :=
  if c.toNat < 0x80 then 1
  else if c.toNat < 0x800 then 2
  else if c.toNat < 0x10000 then 3
  else 4

/-- Model of the source expression `TextEncoder().encode(s).length`: the UTF-8 byte length of a string. -/
def utf8Len (s : Str) : Nat := (s.map utf8CharBytes).sum

/-- Source function `calculateByteSize(content)`: UTF-8 byte length plus the ~3% JSON
encoding overhead allowance `Math.ceil(encoded.length * 0.03)`.
Empty (falsy) input yields 0. -/
def calculateByteSize (content : Str) : Nat :=
  if content = [] then 0
  else utf8Len content + (3 * utf8Len content + 99) / 100

/-- Constant `HIVE_BODY_LIMIT_BYTES = 64 * 1024`. -/
def HIVE_BODY_LIMIT_BYTES : Nat := 64 * 1024

/-- Constant `SAFE_CHUNK_SIZE_BYTES = 58 * 1024`. -/
def SAFE_CHUNK_SIZE_BYTES : Nat := 58 * 1024

/-- Constant `METADATA_OVERHEAD_BYTES = 2 * 1024`. -/
def METADATA_OVERHEAD_BYTES : Nat := 2 * 1024

/-- Source function `needsSplitting(content)`: true when the estimated size exceeds the safe
single-part budget. -/
def needsSplitting (content : Str) : Bool :=
  SAFE_CHUNK_SIZE_BYTES < calculateByteSize content

/-- Constant `SPLIT_CONFIG.minChunkSizeBytes = 10 * 1024`. -/
def minChunkSizeBytes : Nat := 10 * 1024

/-- Boundary kinds accepted by `findSplitPosition`. -/
inductive Boundary where
  | paragraph
  | sentence
  | word
  | character
deriving Repr, DecidableEq

/-- Marker list `SPLIT_CONFIG.paragraphMarkers`. -/
def paragraphMarkers : List Str :=
  ["\n\n".toList, "</p>".toList, "<br><br>".toList, "<br/><br/>".toList]

/-- Marker list `SPLIT_CONFIG.sentenceMarkers`. -/
def sentenceMarkers : List Str :=
  [". ".toList, "! ".toList, "? ".toList, ".\n".toList, "!\n".toList, "?\n".toList]

/-- Marker `SPLIT_CONFIG.wordMarker` (as the one-element marker list used for the
`word` boundary kind). -/
def wordMarkers : List Str := [" ".toList]

/-- Helper for `String.prototype.indexOf`: first index (counting from `i`)
at which `pat` occurs in `s`; `none` when it does not occur. -/
def indexOfAux (pat : Str) : Str → Nat → Option Nat
  | [], i => if pat = [] then some i else none
  | s@(_ :: tl), i => if pat.isPrefixOf s then some i else indexOfAux pat tl (i + 1)

/-- Model of `content.indexOf(marker, searchPos)` (`none` models the `-1` result). -/
def indexOfFrom (content pat : Str) (searchPos : Nat) : Option Nat :=
  (indexOfAux pat (content.drop searchPos) searchPos)

/-- The inner `for (const marker of markers)` search of `findSplitPosition`:
the earliest next marker occurrence at or after `searchPos`, together with
the marker that occurs there.  A strictly smaller position wins; on ties the
earlier marker in the list wins (the source updates only on `pos < nextMarkerPos`). -/
def findNextMarker (content : Str) (markers : List Str) (searchPos : Nat) :
    Option (Nat × Str) :=
  markers.foldl
    (fun acc marker =>
      match indexOfFrom content marker searchPos with
      | none => acc
      | some pos =>
        match acc with
        | none => some (pos, marker)
        | some (best, bm) => if pos < best then some (pos, marker) else some (best, bm))
    none

/-- The `while (searchPos < content.length)` marker scan of
`findSplitPosition` for the paragraph/sentence/word kinds.  Returns the
final `(bestSplitPos, searchPos)` pair.  The loop is encoded with an
explicit iteration budget `fuel` to keep the recursion structural:
`searchPos` strictly increases on every iteration (all configured markers
are non-empty) and is bounded by `content.length`, so the initial budget
`content.length` passed by `findSplitPosition` always suffices and the
budget-exhausted branch is unreachable. -/
def markerScanAux (content : Str) (markers : List Str) (targetSize : Nat) :
    (fuel : Nat) → (searchPos bestSplitPos : Nat) → Nat × Nat
  | 0, searchPos, bestSplitPos => (bestSplitPos, searchPos)
  | fuel + 1, searchPos, bestSplitPos =>
    if searchPos < content.length then
      match findNextMarker content markers searchPos with
      | none => (bestSplitPos, searchPos)
      | some (pos, marker) =>
        let posAfterMarker := pos + marker.length
        if calculateByteSize (content.take posAfterMarker) ≤ targetSize then
          markerScanAux content markers targetSize fuel posAfterMarker posAfterMarker
        else (bestSplitPos, searchPos)
    else (bestSplitPos, searchPos)

/-- The `character` branch of `findSplitPosition`: scan code point by code
point, accumulating encoded byte length incrementally; stop before the first
character that would exceed `targetSize`; if the whole text fits return its
length.  `pos` counts the characters already consumed. -/
def charScanAux (targetSize : Nat) : Str → Nat → Nat → Nat
  | [], pos, _ => pos
  | c :: rest, pos, byteCount =>
    if targetSize < byteCount + utf8CharBytes c then pos
    else charScanAux targetSize rest (pos + 1) (byteCount + utf8CharBytes c)

/-- Marker list selected by `findSplitPosition` for a non-character boundary. -/
def markersFor : Boundary → List Str
  | .paragraph => paragraphMarkers
  | .sentence => sentenceMarkers
  | .word => wordMarkers
  | .character => []

/-- Source function `findSplitPosition(content, targetSize, boundary)`. -/
def findSplitPosition (content : Str) (targetSize : Nat) (boundary : Boundary) : Nat :=
  match boundary with
  | .character => charScanAux targetSize content 0 0
  | kind =>
    let (bestSplitPos, searchPos) :=
      markerScanAux content (markersFor kind) targetSize content.length 0 0
    if bestSplitPos > 0 then bestSplitPos else searchPos

/-- JavaScript `\s` for the whitespace classes appearing in this content
(space, tab, newline, carriage return, form feed, vertical tab, NBSP). -/
def isJsWhitespace (c : Char) : Bool :=
  c = ' ' || c = '\t' || c = '\n' || c = '\r' ||
  c = '\x0b' || c = '\x0c' || c = '\u00A0'

/-- Model of `s.trim()`. -/
def jsTrim (s : Str) : Str :=
  (s.dropWhile isJsWhitespace).reverse.dropWhile isJsWhitespace |>.reverse

/-- Model of `s.split(/\s+/)` on an already-trimmed string: the maximal runs of
non-whitespace characters, except that an empty string yields `[[]]`
(JavaScript's `''.split(/\s+/) == ['']`). -/
def splitWs (s : Str) : List Str :=
  if s = [] then [[]]
  else (s.splitOnP (fun c => isJsWhitespace c)).filter (· ≠ [])

/-- Word count `content.trim().split(/\s+/).length` (single-part branch: no filter). -/
def wordCountNoFilter (content : Str) : Nat :=
  (splitWs (jsTrim content)).length

/-- Word count `content.trim().split(/\s+/).filter(w => w.length > 0).length`. -/
def wordCountFiltered (content : Str) : Nat :=
  ((splitWs (jsTrim content)).filter (fun w => w.length > 0)).length

/-- A `ContentPart` produced by `splitContentIntoParts`. -/
structure ContentPart where
  partNumber : Nat
  totalParts : Nat
  content : Str
  byteSize : Nat
  wordCount : Nat
  boundary : Str
deriving Repr, DecidableEq

/-- The usable per-part budget `SAFE_CHUNK_SIZE_BYTES - METADATA_OVERHEAD_BYTES`. -/
def usableChunkSize : Nat := SAFE_CHUNK_SIZE_BYTES - METADATA_OVERHEAD_BYTES

/-- Boundary label strings as stored into a part's `boundary` field. -/
def boundaryLabel : Boundary → Str
  | .paragraph => "paragraph".toList
  | .sentence => "sentence".toList
  | .word => "word".toList
  | .character => "character".toList

/-- The inner `for (const boundary of boundaryTypes)` loop of
`splitContentIntoParts`: try each boundary kind in order; accept the first
whose split position is positive and whose chunk either meets the minimum
size or leaves an all-whitespace remainder.  `splitPos` persists across
iterations (the source mutates one variable), and `boundaryUsed` keeps its
initialisation `'character'` when no kind is accepted. -/
def tryBoundariesAux (remaining : Str) : List Boundary → Nat → Str → Nat × Str
  | [], splitPos, boundaryUsed => (splitPos, boundaryUsed)
  | b :: rest, _, boundaryUsed =>
    let splitPos := findSplitPosition remaining usableChunkSize b
    if splitPos > 0 ∧
        (minChunkSizeBytes ≤ calculateByteSize (remaining.take splitPos) ∨
          (jsTrim (remaining.drop splitPos)).length = 0) then
      (splitPos, boundaryLabel b)
    else
      tryBoundariesAux remaining rest splitPos boundaryUsed

/-- Order `boundaryTypes = [preferredBoundary, ...boundaryFallbacks]`. -/
def boundaryTypes : List Boundary := [.paragraph, .sentence, .word, .character]

def tryBoundaries (remaining : Str) : Nat × Str :=
  tryBoundariesAux remaining boundaryTypes 0 ("character".toList)

/-- Split-position selection of one iteration of the main loop of
`splitContentIntoParts`: the boundary-preference loop followed by the
`if (splitPos === 0)` forced character-boundary fallback.  Returns the
chosen `splitPos` together with the `boundaryUsed` label. -/
def chooseSplit (remaining : Str) : Nat × Str :=
  let attempt := tryBoundaries remaining
  if attempt.1 = 0 then
    (findSplitPosition remaining usableChunkSize .character,
     "character (forced)".toList)
  else attempt

/-- The main `while (remainingContent.length > 0)` loop of
`splitContentIntoParts`, with the mutable `partNumber` made explicit.
Faithfully reproduces the order of operations of the source: push the part,
advance the remainder, increment `partNumber`, then throw when
`partNumber > 100` — before the loop condition is re-checked.  The loop is
encoded with an explicit iteration budget `fuel` to keep the recursion
structural: every iteration consumes at least one character of `remaining`,
so the initial budget `content.length` passed by `splitContentIntoParts`
always suffices and the budget-exhausted branch is unreachable. -/
def splitLoop : (fuel : Nat) → (remaining : Str) → (partNumber : Nat) →
    Except Str (List ContentPart)
  | 0, remaining, _ =>
    if remaining.length = 0 then .ok []
    else .error "iteration budget exhausted (unreachable)".toList
  | fuel + 1, remaining, partNumber =>
    if remaining.length = 0 then .ok []
    else
      if (chooseSplit remaining).1 = 0 then
        -- zero-split bailout: emit the remainder as a final emergency part
        .ok [{ partNumber := partNumber, totalParts := 0, content := remaining,
               byteSize := calculateByteSize remaining,
               wordCount := wordCountFiltered remaining,
               boundary := "emergency (no split possible)".toList }]
      else
        let partContent := remaining.take (chooseSplit remaining).1
        let part : ContentPart :=
          { partNumber := partNumber, totalParts := 0, content := partContent,
            byteSize := calculateByteSize partContent,
            wordCount := wordCountFiltered partContent,
            boundary := (chooseSplit remaining).2 }
        if partNumber + 1 > 100 then
          .error "Content too large - exceeded maximum of 100 parts".toList
        else
          (splitLoop fuel (remaining.drop (chooseSplit remaining).1)
              (partNumber + 1)).map
            (fun parts => part :: parts)

/-- Source function `splitContentIntoParts(content)`: single part when no splitting is
needed, otherwise the splitting loop followed by the `totalParts` backfill. -/
def splitContentIntoParts (content : Str) : Except Str (List ContentPart) :=
  if !needsSplitting content then
    .ok [{ partNumber := 1, totalParts := 1, content := content,
           byteSize := calculateByteSize content,
           wordCount := wordCountNoFilter content,
           boundary := "none".toList }]
  else
    (splitLoop content.length content 1).map (fun parts =>
      parts.map (fun p => { p with totalParts := parts.length }))

/-- Concatenation of the `content` fields of a list of parts. -/
def joinParts (parts : List ContentPart) : Str :=
  (parts.map (·.content)).flatten

deriving instance DecidableEq for Except

/-! Lemmas about the splitter, leading to the round-trip property (C1) and
the part-count safety-limit behaviour (C4). -/

theorem joinParts_nil : joinParts [] = [] := rfl

theorem joinParts_cons (p : ContentPart) (ps : List ContentPart) :
    joinParts (p :: ps) = p.content ++ joinParts ps := by
  simp [joinParts]

theorem joinParts_map_totalParts (k : Nat) (ps : List ContentPart) :
    joinParts (ps.map (fun p => { p with totalParts := k })) = joinParts ps := by
  induction ps with
  | nil => rfl
  | cons p ps ih =>
    simp only [List.map_cons, joinParts_cons, ih]

/-- Every successful run of the splitting loop covers the remaining content
exactly: the concatenation of the produced parts' `content` fields is the
input. -/
theorem splitLoop_join (fuel : Nat) : ∀ (remaining : Str) (partNumber : Nat)
    (parts : List ContentPart),
    splitLoop fuel remaining partNumber = .ok parts → joinParts parts = remaining := by
  induction fuel with
  | zero =>
    intro remaining partNumber parts h
    simp only [splitLoop] at h
    by_cases hrem : remaining.length = 0
    · rw [if_pos hrem] at h
      have hnil : remaining = [] := List.eq_nil_of_length_eq_zero hrem
      subst hnil
      simp at h
      simp [h, joinParts]
    · rw [if_neg hrem] at h
      exact absurd h (by simp)
  | succ n ih =>
    intro remaining partNumber parts h
    simp only [splitLoop] at h
    by_cases hrem : remaining.length = 0
    · rw [if_pos hrem] at h
      have hnil : remaining = [] := List.eq_nil_of_length_eq_zero hrem
      subst hnil
      simp at h
      simp [h, joinParts]
    · rw [if_neg hrem] at h
      by_cases hzero : (chooseSplit remaining).1 = 0
      · rw [if_pos hzero] at h
        injection h with h
        simp [← h, joinParts_cons, joinParts]
      · rw [if_neg hzero] at h
        by_cases hcap : partNumber + 1 > 100
        · rw [if_pos hcap] at h
          exact absurd h (by simp)
        · rw [if_neg hcap] at h
          cases hrec : splitLoop n (remaining.drop (chooseSplit remaining).1)
              (partNumber + 1) with
          | error e => rw [hrec] at h; exact absurd h (by simp [Except.map])
          | ok ps =>
            rw [hrec] at h
            simp only [Except.map, Except.ok.injEq] at h
            have hjoin := ih _ _ _ hrec
            rw [← h, joinParts_cons, hjoin]
            simp [List.take_append_drop]

/-- C1: for every string content, the parts returned by a successful run of
`splitContentIntoParts` concatenate — in part order — to exactly the
original content, byte for byte (this in particular covers every content
for which splitting is needed; when no splitting is needed the single
returned part is the whole content). -/
theorem splitContentIntoParts_roundtrip (content : Str) (parts : List ContentPart)
    (h : splitContentIntoParts content = .ok parts) : joinParts parts = content := by
  rw [splitContentIntoParts] at h
  by_cases hns : needsSplitting content
  · rw [hns] at h
    simp only [Bool.not_true, Bool.false_eq_true, if_false] at h
    cases hloop : splitLoop content.length content 1 with
    | error e => rw [hloop] at h; exact absurd h (by simp [Except.map])
    | ok ps =>
      rw [hloop] at h
      simp only [Except.map, Except.ok.injEq] at h
      rw [← h, joinParts_map_totalParts]
      exact splitLoop_join content.length content 1 ps hloop
  · simp only [Bool.not_eq_true] at hns
    rw [hns] at h
    simp only [Bool.not_false, if_true, Except.ok.injEq] at h
    simp [← h, joinParts_cons, joinParts_nil]

/-- Witness for C1 at a concrete input: content `"ab"` splits (trivially)
into one part whose concatenation is `"ab"` again. -/
theorem splitContentIntoParts_roundtrip_witness :
    splitContentIntoParts "ab".toList =
      .ok [{ partNumber := 1, totalParts := 1, content := "ab".toList,
             byteSize := 3, wordCount := 1, boundary := "none".toList }] ∧
    joinParts [{ partNumber := 1, totalParts := 1, content := "ab".toList,
                 byteSize := 3, wordCount := 1, boundary := "none".toList }] =
      "ab".toList := by
  refine ⟨by decide, splitContentIntoParts_roundtrip _ _ (by decide)⟩

/-- C4 (showing the part-count off-by-one): when the splitting loop is about
to produce its 100th part and that part consumes the entire remaining
content — so the total part count is exactly 100, which the claim and the
spec allow — the source still throws `'Content too large - exceeded maximum
of 100 parts'`, because the check `partNumber > 100` runs after the
increment and before the loop condition is re-checked.  With `partNumber`
99 the very same remainder succeeds.  (A full-size failing input is any
content that splits into exactly 100 parts, e.g. 99 paragraph blocks of
roughly 55 KB followed by a short final block; the loop state on entering
its 100th iteration is then the one evaluated here.) -/
theorem splitLoop_throws_at_exactly_100_parts :
    splitLoop 1 "a".toList 100 =
      .error "Content too large - exceeded maximum of 100 parts".toList ∧
    splitLoop 1 "a".toList 99 =
      .ok [{ partNumber := 99, totalParts := 0, content := "a".toList,
             byteSize := 2, wordCount := 1, boundary := "character".toList }] := by
  exact ⟨by decide, by decide⟩

/-! Model of `stripManifestComment` (C10).  The source is the single global
regex replace `content.replace(/\n*<!--ARCHIVE-MANIFEST:[\s\S]*?-->/g, '')`.
A match at a position is a (greedy) run of newlines running directly into
the literal open token, followed by the (lazy) shortest body ending at the
first `-->`.  Global replace removes the leftmost match, resumes scanning
after it, and concatenates what remains.  Non-string inputs, which the
source returns unchanged, are outside this typed model. -/

/-- Literal open token of the embedded manifest marker. -/
def manifestOpenToken : Str := "<!--ARCHIVE-MANIFEST:".toList

/-- Literal close token of the embedded manifest marker. -/
def manifestCloseToken : Str := "-->".toList

/-- Length of the regex match starting at the head of `s`, if one starts
here: `\n*` (the newline run, which must run directly into the open token,
since the token starts with `<`), the open token, then the lazy body up to
and including the first `-->`. -/
def manifestMatchLen? (s : Str) : Option Nat :=
  let nl := (s.takeWhile (fun c => c = '\n')).length
  let afterNl := s.drop nl
  if manifestOpenToken.isPrefixOf afterNl then
    match indexOfAux manifestCloseToken (afterNl.drop manifestOpenToken.length) 0 with
    | some j => some (nl + manifestOpenToken.length + j + manifestCloseToken.length)
    | none => none
  else none

/-- Left-to-right scan of the global replace: at each position, if a match
starts here, drop it and resume after it; otherwise keep the character.
`fuel` keeps the recursion structural; every step consumes at least one
character (a match is at least 24 characters long), so the initial budget
`content.length` always suffices. -/
def stripAux : (fuel : Nat) → Str → Str
  | 0, s => s
  | _ + 1, [] => []
  | fuel + 1, s@(c :: rest) =>
    match manifestMatchLen? s with
    | some len => stripAux fuel (s.drop len)
    | none => c :: stripAux fuel rest

/-- Source function `stripManifestComment(content)`. -/
def stripManifestComment (content : Str) : Str :=
  stripAux content.length content

/-- Whether a manifest-marker match starts at any position of `s`. -/
def hasManifestMatch : Str → Bool
  | [] => false
  | s@(_ :: rest) => (manifestMatchLen? s).isSome || hasManifestMatch rest

theorem stripAux_of_no_match : ∀ (s : Str), hasManifestMatch s = false →
    ∀ (fuel : Nat), stripAux fuel s = s := by
  intro s
  induction s with
  | nil => intro _ fuel; cases fuel <;> rfl
  | cons c rest ih =>
    intro h fuel
    simp only [hasManifestMatch, Bool.or_eq_false_iff] at h
    cases fuel with
    | zero => rfl
    | succ n =>
      simp only [stripAux]
      cases hm : manifestMatchLen? (c :: rest) with
      | some len => rw [hm] at h; simp at h
      | none => simp [ih h.2 n]

/-- Fixed points: a string in which no marker match starts anywhere is left
unchanged by `stripManifestComment`. -/
theorem stripManifestComment_of_no_match (s : Str) (h : hasManifestMatch s = false) :
    stripManifestComment s = s :=
  stripAux_of_no_match s h s.length

/-- C10 (amended): `stripManifestComment` is idempotent on every input whose
stripped result contains no manifest-marker match — in particular on every
input it leaves unchanged and on ordinary published bodies, where deleting
the marker does not splice the surrounding text into a new marker.  (In
general a second strip can remove more: see the counterexample.) -/
theorem stripManifestComment_idempotent_of_no_match (x : Str)
    (h : hasManifestMatch (stripManifestComment x) = false) :
    stripManifestComment (stripManifestComment x) = stripManifestComment x :=
  stripManifestComment_of_no_match _ h

/-- Witness for the amended C10 at a concrete input: one embedded marker
with surrounding text strips to `"ab"`, which contains no further marker,
so a second strip changes nothing. -/
theorem stripManifestComment_idempotent_witness :
    hasManifestMatch
        (stripManifestComment "a\n\n<!--ARCHIVE-MANIFEST:j-->b".toList) = false ∧
    stripManifestComment
        (stripManifestComment "a\n\n<!--ARCHIVE-MANIFEST:j-->b".toList) =
      stripManifestComment "a\n\n<!--ARCHIVE-MANIFEST:j-->b".toList :=
  ⟨by decide, stripManifestComment_idempotent_of_no_match _ (by decide)⟩

/-- C10 (counterexample): `stripManifestComment` is not idempotent.  On
`"<!" ++ "<!--ARCHIVE-MANIFEST:x-->" ++ "--ARCHIVE-MANIFEST:y-->"` the first
strip removes the inner marker and thereby splices the surrounding text into
a brand-new marker `"<!--ARCHIVE-MANIFEST:y-->"`, which only a second strip
removes. -/
theorem stripManifestComment_not_idempotent :
    stripManifestComment
        (stripManifestComment
          "<!<!--ARCHIVE-MANIFEST:x-->--ARCHIVE-MANIFEST:y-->".toList) ≠
      stripManifestComment
        "<!<!--ARCHIVE-MANIFEST:x-->--ARCHIVE-MANIFEST:y-->".toList := by
  decide

/-! Cost model for C9.  The unit of cost is one character whose encoded
byte size is computed.  The character branch of `findSplitPosition` encodes
exactly one character per loop step (the bug-fixed incremental tracking);
the paragraph/sentence/word branch calls
`calculateByteSize(content.substring(0, posAfterMarker))` at every marker
step, which re-encodes the entire growing prefix from scratch — that call
costs the full prefix length. -/

/-- Sizing cost of the character branch: one per character examined (the
character that overflows the budget is encoded before the loop stops). -/
def charScanCost (targetSize : Nat) : Str → Nat → Nat
  | [], _ => 0
  | c :: rest, byteCount =>
    if targetSize < byteCount + utf8CharBytes c then 1
    else 1 + charScanCost targetSize rest (byteCount + utf8CharBytes c)

/-- Sizing cost of the marker scan: each step pays the length of the whole
prefix handed to `calculateByteSize`.  Same control flow (and iteration
budget) as `markerScanAux`. -/
def markerScanCost (content : Str) (markers : List Str) (targetSize : Nat) :
    (fuel : Nat) → (searchPos : Nat) → Nat
  | 0, _ => 0
  | fuel + 1, searchPos =>
    if searchPos < content.length then
      match findNextMarker content markers searchPos with
      | none => 0
      | some (pos, marker) =>
        let posAfterMarker := pos + marker.length
        (content.take posAfterMarker).length +
          (if calculateByteSize (content.take posAfterMarker) ≤ targetSize then
            markerScanCost content markers targetSize fuel posAfterMarker
          else 0)
    else 0

/-- Total number of characters whose encoded byte size `findSplitPosition`
computes, per boundary kind. -/
def findSplitSizingChars (content : Str) (targetSize : Nat) : Boundary → Nat
  | .character => charScanCost targetSize content 0
  | kind => markerScanCost content (markersFor kind) targetSize content.length 0

theorem charScanCost_le (targetSize : Nat) : ∀ (s : Str) (byteCount : Nat),
    charScanCost targetSize s byteCount ≤ s.length := by
  intro s
  induction s with
  | nil => intro byteCount; simp [charScanCost]
  | cons c rest ih =>
    intro byteCount
    simp only [charScanCost, List.length_cons]
    split
    · omega
    · have := ih (byteCount + utf8CharBytes c)
      omega

/-- C9 (amended, positive half): with the `character` boundary kind,
`findSplitPosition` computes each character's encoded size at most once —
the total sizing work is bounded by the text length, hence linear. -/
theorem findSplitSizingChars_character_linear (content : Str) (targetSize : Nat) :
    findSplitSizingChars content targetSize .character ≤ content.length :=
  charScanCost_le targetSize content 0

/-- C9 (counterexample): the claimed property — that for every text, budget
and boundary kind the split-position search never recomputes the encoded
size of the growing prefix, i.e. its sizing work stays within one pass over
the text — fails for the marker kinds.  On the five-character text
`"a a a"` with the `word` kind, the scan re-encodes the prefix of length 2
and then the prefix of length 4 from scratch: 6 characters sized, more than
the text's 5. -/
theorem findSplitSizingChars_word_not_linear :
    ¬ (findSplitSizingChars "a a a".toList 1000 .word ≤ ("a a a".toList).length) := by
  decide

/-! Dual-hash engine (C8, and used by C2).  The three digest algorithms are
external libraries (Web Crypto SHA-256, blakejs, the md5 library) and are
modelled as function parameters; `blake` is `none` when blakejs is
unavailable (the source then stores `null`).  A missing md5 library throws
in the source, so `md5F` is a required parameter. -/

/-- Result shape of `hashString`. -/
structure HashTriple where
  sha256 : Str
  blake2b : Option Str
  md5 : Str
deriving Repr, DecidableEq

/-- Source function `hashString(input)`. -/
def hashString (sha : Str → Str) (blake : Option (Str → Str)) (md5F : Str → Str)
    (input : Str) : HashTriple :=
  { sha256 := sha input, blake2b := blake.map (fun f => f input), md5 := md5F input }

/-- One entry of the `partHashes` array produced by `hashMultiPartContent`. -/
structure PartHashEntry where
  part_number : Nat
  sha256 : Str
  blake2b : Option Str
  md5 : Str
deriving Repr, DecidableEq

/-- Result shape of `hashMultiPartContent`. -/
structure HashBundle where
  partHashes : List PartHashEntry
  fullContentHash : HashTriple
deriving Repr, DecidableEq

/-- Per-part hashing loop (`for i in 0..parts.length-1`), with the running
index made explicit. -/
def buildPartHashes (sha : Str → Str) (blake : Option (Str → Str)) (md5F : Str → Str) :
    Nat → List Str → List PartHashEntry
  | _, [] => []
  | i, c :: cs =>
    let h := hashString sha blake md5F c
    { part_number := i + 1, sha256 := h.sha256, blake2b := h.blake2b, md5 := h.md5 }
      :: buildPartHashes sha blake md5F (i + 1) cs

/-- Source function `hashMultiPartContent(contentParts)`: per-part hashes
plus the hash of the separator-free concatenation. -/
def hashMultiPartContent (sha : Str → Str) (blake : Option (Str → Str))
    (md5F : Str → Str) (contentParts : List Str) : Except Str HashBundle :=
  if contentParts.length = 0 then
    .error "hashMultiPartContent requires a non-empty array of content parts".toList
  else
    .ok { partHashes := buildPartHashes sha blake md5F 0 contentParts,
          fullContentHash := hashString sha blake md5F contentParts.flatten }

/-- Expected per-part hash shape accepted by `verifyMultiPartContent`.
JavaScript's absent-versus-null distinction matters here: the outer `Option`
is property presence (`none` = `undefined`, skipped by the backward-compat
checks); the inner `Option Str` of `blake2b` is the stored value, which can
be `null`. -/
structure ExpectedPartHash where
  sha256 : Str
  blake2b : Option (Option Str)
  md5 : Option (Option Str)
deriving Repr, DecidableEq

/-- Expected full-content hash: either the legacy bare SHA-256 string or the
Phase-3 object with optional `blake2b`/`md5` properties. -/
inductive ExpectedFullHash where
  | legacy (sha256 : Str)
  | triple (sha256 : Str) (blake2b : Option (Option Str)) (md5 : Option (Option Str))
deriving Repr, DecidableEq

/-- Shape of the `expectedHashes` argument of `verifyMultiPartContent`. -/
structure ExpectedHashes where
  partHashes : List ExpectedPartHash
  fullContentHash : ExpectedFullHash
deriving Repr, DecidableEq

/-- The `matches` object: `sha256` is always compared; the optional entries
exist only when the corresponding expected property is present. -/
structure HashMatches where
  sha256 : Bool
  blake2b : Option Bool
  md5 : Option Bool
deriving Repr, DecidableEq

/-- Model of `Object.values(matches).every(m => m === true)`: entries absent
from the object do not participate. -/
def HashMatches.allTrue (m : HashMatches) : Bool :=
  m.sha256 && m.blake2b.getD true && m.md5.getD true

/-- One element of `partVerifications` (`algMatches` is the source's
`matches` object; the name avoids Lean's `matches` keyword). -/
structure PartVerification where
  partNumber : Nat
  valid : Bool
  algMatches : HashMatches
deriving Repr, DecidableEq

/-- Per-part comparison of an actual hash entry against an expected one
(backward-compatible: only algorithms present in the expected entry are
compared; `===` against a possibly-null stored value is `Option` equality). -/
def mkPartVerification (i : Nat) (actual : PartHashEntry)
    (expected : ExpectedPartHash) : PartVerification :=
  let mm : HashMatches :=
    { sha256 := actual.sha256 == expected.sha256,
      blake2b := expected.blake2b.map (fun v => actual.blake2b == v),
      md5 := expected.md5.map (fun v => (some actual.md5 : Option Str) == v) }
  { partNumber := i + 1, valid := mm.allTrue, algMatches := mm }

/-- The indexed comparison loop over the two equal-length hash arrays. -/
def buildPartVerifications :
    Nat → List PartHashEntry → List ExpectedPartHash → List PartVerification
  | _, [], _ => []
  | _, _ :: _, [] => []
  | i, a :: as, e :: es =>
    mkPartVerification i a e :: buildPartVerifications (i + 1) as es

/-- Result of `verifyMultiPartContent`: the early part-count-mismatch return
or the full report.  The stored `valid` flag of the report is
`allPartsValid && fullHashValid`, exposed through `VerifyResult.valid`. -/
inductive VerifyResult where
  | countMismatch (expected actual : Nat)
  | report (partVerifications : List PartVerification) (fullHashMatches : HashMatches)
      (allPartsValid fullHashValid : Bool)
deriving Repr, DecidableEq

/-- Overall `valid` flag of a verification result. -/
def VerifyResult.valid : VerifyResult → Bool
  | .countMismatch _ _ => false
  | .report _ _ allPartsValid fullHashValid => allPartsValid && fullHashValid

/-- Source function `verifyMultiPartContent(contentParts, expectedHashes)`. -/
def verifyMultiPartContent (sha : Str → Str) (blake : Option (Str → Str))
    (md5F : Str → Str) (contentParts : List Str) (expected : ExpectedHashes) :
    Except Str VerifyResult :=
  (hashMultiPartContent sha blake md5F contentParts).map (fun actual =>
    if actual.partHashes.length ≠ expected.partHashes.length then
      .countMismatch expected.partHashes.length actual.partHashes.length
    else
      let partVerifications :=
        buildPartVerifications 0 actual.partHashes expected.partHashes
      let fullHashMatches : HashMatches :=
        match expected.fullContentHash with
        | .legacy sh =>
          { sha256 := actual.fullContentHash.sha256 == sh, blake2b := none, md5 := none }
        | .triple sh bl md =>
          { sha256 := actual.fullContentHash.sha256 == sh,
            blake2b := bl.map (fun v => actual.fullContentHash.blake2b == v),
            md5 := md.map (fun v => (some actual.fullContentHash.md5 : Option Str) == v) }
      let fullHashValid :=
        match expected.fullContentHash with
        | .legacy _ => fullHashMatches.sha256
        | .triple _ _ _ => fullHashMatches.allTrue
      let allPartsValid := partVerifications.all (fun p => p.valid)
      .report partVerifications fullHashMatches allPartsValid fullHashValid)

/-- Re-reading an actual per-part hash entry as an expected one (all three
properties present, `blake2b` possibly null) — the shape a freshly written
manifest stores. -/
def expectedOfPartEntry (p : PartHashEntry) : ExpectedPartHash :=
  { sha256 := p.sha256, blake2b := some p.blake2b, md5 := some (some p.md5) }

/-- Re-reading a hash bundle as the expected-hash argument of verification. -/
def expectedOfBundle (b : HashBundle) : ExpectedHashes :=
  { partHashes := b.partHashes.map expectedOfPartEntry,
    fullContentHash := .triple b.fullContentHash.sha256
      (some b.fullContentHash.blake2b) (some (some b.fullContentHash.md5)) }

theorem mkPartVerification_self_valid (i : Nat) (a : PartHashEntry) :
    (mkPartVerification i a (expectedOfPartEntry a)).valid = true := by
  simp [mkPartVerification, expectedOfPartEntry, HashMatches.allTrue]

theorem buildPartVerifications_self_valid : ∀ (as : List PartHashEntry) (i : Nat),
    ∀ v ∈ buildPartVerifications i as (as.map expectedOfPartEntry), v.valid = true := by
  intro as
  induction as with
  | nil => intro i v hv; simp [buildPartVerifications] at hv
  | cons a as ih =>
    intro i v hv
    simp only [List.map_cons, buildPartVerifications, List.mem_cons] at hv
    rcases hv with h | h
    · rw [h]; exact mkPartVerification_self_valid i a
    · exact ih (i + 1) v h

/-- C8: verifying a non-empty list of parts against the hashes just computed
from it reports fully valid — the overall flag is true, every per-part entry
is valid, and the full-content hash matches. -/
theorem verifyMultiPartContent_roundtrip (sha : Str → Str)
    (blake : Option (Str → Str)) (md5F : Str → Str) (parts : List Str)
    (hne : parts ≠ []) :
    ∃ (b : HashBundle) (pv : List PartVerification) (fm : HashMatches),
      hashMultiPartContent sha blake md5F parts = .ok b ∧
      verifyMultiPartContent sha blake md5F parts (expectedOfBundle b) =
        .ok (.report pv fm true true) ∧
      (∀ v ∈ pv, v.valid = true) ∧
      (VerifyResult.report pv fm true true).valid = true ∧
      fm.allTrue = true := by
  have hlen : parts.length ≠ 0 := by
    intro h; exact hne (List.eq_nil_of_length_eq_zero h)
  set b : HashBundle :=
    { partHashes := buildPartHashes sha blake md5F 0 parts,
      fullContentHash := hashString sha blake md5F parts.flatten } with hb
  have hhash : hashMultiPartContent sha blake md5F parts = .ok b := by
    simp [hashMultiPartContent, hlen, hb]
  refine ⟨b, buildPartVerifications 0 b.partHashes (expectedOfBundle b).partHashes,
    { sha256 := true, blake2b := some true, md5 := some true }, hhash, ?_, ?_, ?_, ?_⟩
  · rw [verifyMultiPartContent, hhash]
    simp only [Except.map]
    have hval : ∀ v ∈ buildPartVerifications 0 b.partHashes
        (expectedOfBundle b).partHashes, v.valid = true := by
      intro v hv
      exact buildPartVerifications_self_valid b.partHashes 0 v hv
    have hall : (buildPartVerifications 0 b.partHashes
        (expectedOfBundle b).partHashes).all (fun p => p.valid) = true := by
      rw [List.all_eq_true]; exact hval
    simp [expectedOfBundle, HashMatches.allTrue, hall]
    intro x hx
    exact buildPartVerifications_self_valid _ 0 x hx
  · intro v hv
    exact buildPartVerifications_self_valid b.partHashes 0 v hv
  · rfl
  · rfl

/-- Witness for C8 at a concrete input: one part `"a"`, the identity taken
for all three digest parameters. -/
theorem verifyMultiPartContent_roundtrip_witness :
    ("a".toList :: [] : List Str) ≠ [] ∧
    (∃ (b : HashBundle) (pv : List PartVerification) (fm : HashMatches),
      hashMultiPartContent (fun s => s) (some (fun s => s)) (fun s => s)
          ["a".toList] = .ok b ∧
      verifyMultiPartContent (fun s => s) (some (fun s => s)) (fun s => s)
          ["a".toList] (expectedOfBundle b) = .ok (.report pv fm true true) ∧
      (∀ v ∈ pv, v.valid = true) ∧
      (VerifyResult.report pv fm true true).valid = true ∧
      fm.allTrue = true) :=
  ⟨by decide, verifyMultiPartContent_roundtrip _ _ _ _ (by decide)⟩

/-! Series manifest (C7, and used by the pipeline).  The `Manifest`
structure carries the fields read by the functions verified here
(`compactManifestForPost`, `updateManifestWithPost`, the posting pipeline
and the resume verifier); fields such as `created_at`, `part_hashes` or the
splitting metadata are never read by them and are omitted. -/

/-- One `PartRecord` of `manifest.parts`. -/
structure PartRecord where
  part_number : Nat
  permlink : Option Str
  author : Option Str
  status : Str
  posted_at : Option Str := none
deriving Repr, DecidableEq

/-- The series manifest (fields used by the verified functions). -/
structure Manifest where
  series_id : Str
  version : Str
  source_url : Str
  title : Str
  total_parts : Nat
  root_permlink : Option Str
  content_hash_full : HashTriple
  tags : List Str
  parts : List PartRecord
deriving Repr, DecidableEq

/-- Decimal rendering of a number, as JavaScript template interpolation and
`JSON.stringify` produce it. -/
def natToStr (n : Nat) : Str := (toString n).toList

/-- The `postInfo` argument of `updateManifestWithPost` (fields can be null
in JavaScript, hence `Option`). -/
structure PostInfo where
  permlink : Option Str
  author : Option Str
deriving Repr, DecidableEq

/-- Source function `updateManifestWithPost(manifest, partNumber, postInfo)`:
replaces exactly one `PartRecord` with a posted record carrying the
locator, author and timestamp; throws on an out-of-range part number
(`partIndex < 0 || partIndex >= manifest.total_parts`). -/
def updateManifestWithPost (manifest : Manifest) (partNumber : Nat)
    (postInfo : PostInfo) (now : Str) : Except Str Manifest :=
  if partNumber < 1 ∨ manifest.total_parts < partNumber then
    .error ("Invalid part number: ".toList ++ natToStr partNumber)
  else
    .ok { manifest with
      parts := manifest.parts.set (partNumber - 1)
        { part_number := partNumber, permlink := postInfo.permlink,
          author := postInfo.author, status := "posted".toList,
          posted_at := some now } }

/-- The post-success status-correction loop of `_postPartWithRetry`
(`for (let i = 1; i <= partNumber; i++) if (parts[i-1].status !== 'posted')
parts[i-1].status = 'posted'`), with the running 1-based index explicit.
Only the `status` field is written; locators are left as they are. -/
def markPostedUpToAux (partNumber : Nat) : Nat → List PartRecord → List PartRecord
  | _, [] => []
  | i, p :: rest =>
    (if i ≤ partNumber then
      (if p.status ≠ "posted".toList then { p with status := "posted".toList } else p)
    else p) :: markPostedUpToAux partNumber (i + 1) rest

/-- Status correction applied to a parts array: mark every part up to and
including `partNumber` as posted. -/
def markPostedUpTo (parts : List PartRecord) (partNumber : Nat) : List PartRecord :=
  markPostedUpToAux partNumber 1 parts

/-- The PartRecord invariant of the spec: `status=posted` implies both
locator fields are non-null. -/
def partInvariant (p : PartRecord) : Prop :=
  p.status = "posted".toList → p.permlink ≠ none ∧ p.author ≠ none

instance (p : PartRecord) : Decidable (partInvariant p) := by
  unfold partInvariant; infer_instance

/-- The manifest-wide PartRecord invariant. -/
def manifestInvariant (m : Manifest) : Prop :=
  ∀ p ∈ m.parts, partInvariant p

instance (m : Manifest) : Decidable (manifestInvariant m) := by
  unfold manifestInvariant; infer_instance

theorem markPostedUpToAux_invariant (partNumber : Nat) :
    ∀ (parts : List PartRecord) (i : Nat),
      (∀ p ∈ parts, partInvariant p) →
      (∀ j, j < partNumber + 1 - i → ∀ p, parts.get? j = some p →
        p.permlink ≠ none ∧ p.author ≠ none) →
      ∀ q ∈ markPostedUpToAux partNumber i parts, partInvariant q := by
  intro parts
  induction parts with
  | nil => intro i _ _ q hq; simp [markPostedUpToAux] at hq
  | cons p rest ih =>
    intro i hinv hloc q hq
    simp only [markPostedUpToAux, List.mem_cons] at hq
    rcases hq with hq | hq
    · subst hq
      by_cases hi : i ≤ partNumber
      · have hp : p.permlink ≠ none ∧ p.author ≠ none := by
          refine hloc 0 (by omega) p ?_
          rfl
        rw [if_pos hi]
        by_cases hst : p.status ≠ "posted".toList
        · rw [if_pos hst]
          intro _
          exact hp
        · rw [if_neg hst]
          intro _
          exact hp
      · rw [if_neg hi]
        exact hinv p (List.mem_cons_self p rest)
    · refine ih (i + 1) (fun r hr => hinv r (List.mem_cons_of_mem p hr)) ?_ q hq
      intro j hj r hr
      refine hloc (j + 1) (by omega) r ?_
      simpa using hr

/-- C7 (amended): both pipeline mutations preserve the PartRecord invariant
under the stated preconditions.  (1) `updateManifestWithPost` preserves it
whenever the recorded permlink and author are non-null — as they are on the
pipeline's success path, which validates the transport's permlink and
passes the constructor-validated author.  (2) the post-success status
correction `markPostedUpTo` preserves it provided every part it touches
(parts 1..n) already carries non-null locator fields — as on the sequential
success path, where parts below n were posted in their own iterations; on a
manifest where some part at or below n still has null locators it marks
that part posted with null locators and breaks the invariant (see the
counterexample). -/
theorem pipeline_mutations_preserve_invariant :
    (∀ (m : Manifest) (partNumber : Nat) (info : PostInfo) (now : Str)
        (m' : Manifest),
      info.permlink ≠ none → info.author ≠ none → manifestInvariant m →
      updateManifestWithPost m partNumber info now = .ok m' →
      manifestInvariant m') ∧
    (∀ (m : Manifest) (partNumber : Nat),
      manifestInvariant m →
      (∀ j, j < partNumber → ∀ p, m.parts.get? j = some p →
        p.permlink ≠ none ∧ p.author ≠ none) →
      manifestInvariant { m with parts := markPostedUpTo m.parts partNumber }) := by
  constructor
  · intro m partNumber info now m' hpl hau hinv hup
    rw [updateManifestWithPost] at hup
    split at hup
    · exact absurd hup (by simp)
    · simp only [Except.ok.injEq] at hup
      subst hup
      intro p hp
      simp only at hp
      rcases List.mem_or_eq_of_mem_set hp with hmem | heq
      · exact hinv p hmem
      · subst heq
        intro _
        exact ⟨hpl, hau⟩
  · intro m partNumber hinv hloc p hp
    simp only at hp
    refine markPostedUpToAux_invariant partNumber m.parts 1 hinv ?_ p hp
    intro j hj r hr
    exact hloc j (by omega) r hr

/-- Witness for the amended C7 at concrete inputs: a two-part manifest with
part 1 already posted (locators present); recording part 2 and then running
the status correction up to 2 both preserve the invariant. -/
theorem pipeline_mutations_preserve_invariant_witness :
    (({ permlink := some "p2".toList, author := some "alice".toList } : PostInfo).permlink
        ≠ none) ∧
    manifestInvariant
      { series_id := "s".toList, version := "1.0".toList, source_url := "u".toList,
        title := "t".toList, total_parts := 2, root_permlink := none,
        content_hash_full := { sha256 := [], blake2b := none, md5 := [] },
        tags := [],
        parts := [{ part_number := 1, permlink := some "p1".toList,
                    author := some "alice".toList, status := "posted".toList },
                  { part_number := 2, permlink := some "p2".toList,
                    author := some "alice".toList, status := "pending".toList }] } ∧
    manifestInvariant
      { series_id := "s".toList, version := "1.0".toList, source_url := "u".toList,
        title := "t".toList, total_parts := 2, root_permlink := none,
        content_hash_full := { sha256 := [], blake2b := none, md5 := [] },
        tags := [],
        parts := markPostedUpTo
          [{ part_number := 1, permlink := some "p1".toList,
             author := some "alice".toList, status := "posted".toList },
           { part_number := 2, permlink := some "p2".toList,
             author := some "alice".toList, status := "pending".toList }] 2 } := by
  refine ⟨by decide, by decide, ?_⟩
  exact pipeline_mutations_preserve_invariant.2
    { series_id := "s".toList, version := "1.0".toList, source_url := "u".toList,
      title := "t".toList, total_parts := 2, root_permlink := none,
      content_hash_full := { sha256 := [], blake2b := none, md5 := [] },
      tags := [],
      parts := [{ part_number := 1, permlink := some "p1".toList,
                  author := some "alice".toList, status := "posted".toList },
                { part_number := 2, permlink := some "p2".toList,
                  author := some "alice".toList, status := "pending".toList }] }
    2 (by decide) (by decide)

/-- C7 (counterexample): the post-success status correction does not
preserve the invariant in general.  On a two-part manifest whose part 1 is
still pending with null locators (the "partially-applied prior state" the
correction is meant to heal), marking parts ≤ 2 as posted turns part 1 into
`status=posted` with null permlink and author — the very state the
manifest's own validation rejects. -/
theorem markPostedUpTo_breaks_invariant :
    manifestInvariant
      { series_id := "s".toList, version := "1.0".toList, source_url := "u".toList,
        title := "t".toList, total_parts := 2, root_permlink := none,
        content_hash_full := { sha256 := [], blake2b := none, md5 := [] },
        tags := [],
        parts := [{ part_number := 1, permlink := none, author := none,
                    status := "pending".toList },
                  { part_number := 2, permlink := some "p2".toList,
                    author := some "alice".toList, status := "posted".toList }] } ∧
    ¬ manifestInvariant
      { series_id := "s".toList, version := "1.0".toList, source_url := "u".toList,
        title := "t".toList, total_parts := 2, root_permlink := none,
        content_hash_full := { sha256 := [], blake2b := none, md5 := [] },
        tags := [],
        parts := markPostedUpTo
          [{ part_number := 1, permlink := none, author := none,
             status := "pending".toList },
           { part_number := 2, permlink := some "p2".toList,
             author := some "alice".toList, status := "posted".toList }] 2 } := by
  constructor
  · decide
  · decide

/-! Compact manifest encoding (used by the publish payload, C3).  The
source builds a plain object `{s, v, t, p, h, u}` and serialises it with
`JSON.stringify`; the serialisation is modelled field by field in the same
insertion order. -/

/-- Hexadecimal digit for JSON `\u00XX` escapes. -/
def hexDigit (n : Nat) : Char :=
  if n < 10 then Char.ofNat ('0'.toNat + n) else Char.ofNat ('a'.toNat + (n - 10))

/-- JSON escape of one character, as `JSON.stringify` produces it. -/
def jsonEscapeChar (c : Char) : Str :=
  if c = '"' then ['\\', '"']
  else if c = '\\' then ['\\', '\\']
  else if c = '\n' then ['\\', 'n']
  else if c = '\t' then ['\\', 't']
  else if c = '\r' then ['\\', 'r']
  else if c = '\x08' then ['\\', 'b']
  else if c = '\x0c' then ['\\', 'f']
  else if c.toNat < 0x20 then
    ['\\', 'u', '0', '0', hexDigit (c.toNat / 16), hexDigit (c.toNat % 16)]
  else [c]

/-- JSON string literal. -/
def jsonStr (str : Str) : Str :=
  '"' :: (str.map jsonEscapeChar).flatten ++ ['"']

/-- JSON rendering of a string-or-null value. -/
def jsonOptStr : Option Str → Str
  | none => "null".toList
  | some str => jsonStr str

/-- One `"key":value` JSON object member. -/
def jsonMember (key : Str) (value : Str) : Str :=
  jsonStr key ++ ':' :: value

/-- JSON rendering of a `HashTriple` (field order of the `hashString`
result object: sha256, blake2b, md5). -/
def jsonHashTriple (h : HashTriple) : Str :=
  '\x7b' :: jsonMember "sha256".toList (jsonStr h.sha256) ++
    ',' :: jsonMember "blake2b".toList (jsonOptStr h.blake2b) ++
    ',' :: jsonMember "md5".toList (jsonStr h.md5) ++ ['\x7d']

/-- The serialised compact manifest object `{s, v, t, p, h, u}` of
`compactManifestForPost`. -/
def compactManifestJson (m : Manifest) (currentPartNumber : Nat) : Str :=
  '\x7b' :: jsonMember "s".toList (jsonStr m.series_id) ++
    ',' :: jsonMember "v".toList (jsonStr m.version) ++
    ',' :: jsonMember "t".toList (natToStr m.total_parts) ++
    ',' :: jsonMember "p".toList (natToStr currentPartNumber) ++
    ',' :: jsonMember "h".toList (jsonHashTriple m.content_hash_full) ++
    ',' :: jsonMember "u".toList (jsonStr m.source_url) ++ ['\x7d']

/-- Source function `compactManifestForPost(manifest, currentPartNumber)`:
the serialised compact object, rejected above the fixed 16 KiB ceiling. -/
def compactManifestForPost (m : Manifest) (currentPartNumber : Nat) :
    Except Str Str :=
  let manifestJson := compactManifestJson m currentPartNumber
  if manifestJson.length > 16 * 1024 then
    .error ("Manifest too large: ".toList ++ natToStr manifestJson.length ++
      " bytes (limit: ".toList ++ natToStr (16 * 1024) ++ ")".toList)
  else .ok manifestJson

/-! Posting pipeline (C3, C5, C6).  External pieces and JavaScript
dynamism are modelled as follows:
* the transport collaborator is an oracle `Nat → Nat → PostPayload →
  TransportResult` indexed by part number and attempt number (the source
  passes only the payload; the extra indices model the nondeterminism of
  the network across retries of the same payload);
* the constructor's `contentParts` elements are either bare strings (what
  the constructor's doc comment and example show) or the splitter's part
  records (what `_postPartWithRetry`'s `part.content` access expects);
  reading `.content` off a bare string yields JavaScript `undefined`,
  and template interpolation renders `undefined` as the text `"undefined"`;
* the progress callback is a pure observer and is not modelled; the
  effects the claims speak about (backoff sleeps, transport calls,
  cooldown sleeps) are returned as an explicit log;
* `localStorage`/IndexedDB persistence is a sink and is not modelled: the
  persisted snapshot is a copy of the returned state. -/

/-- One element of the pipeline's `contentParts` array. -/
inductive PipelineContentElem where
  | str (s : Str)
  | part (p : ContentPart)
deriving Repr, DecidableEq

/-- JavaScript property access `elem.content`: `undefined` (`none`) on a
bare string, the content field on a part record. -/
def PipelineContentElem.contentField : PipelineContentElem → Option Str
  | .str _ => none
  | .part p => some p.content

/-- Template interpolation `${content}` of a possibly-undefined value. -/
def jsTemplate (o : Option Str) : Str := o.getD "undefined".toList

/-- JavaScript truthiness of a nullable string: null/undefined and the
empty string are falsy. -/
def jsFalsyOptStr (o : Option Str) : Bool := o = none || o = some []

/-- JavaScript `a || b` for a nullable string with a string default. -/
def jsOrStr (o : Option Str) (dflt : Str) : Str :=
  match o with
  | some t => if t = [] then dflt else t
  | none => dflt

/-- The publish payload handed to the transport collaborator.  The
`json_metadata` object (tags, app tag, and the deep-cloned manifest
snapshot overlaid with the current part number) is flattened into the
`meta*` fields. -/
structure PostPayload where
  parent_author : Str
  author : Str
  title : Str
  body : Str
  metaTags : List Str
  metaManifest : Manifest
  metaCurrentPart : Nat
  permlink : Str
  parent_permlink : Str
deriving Repr, DecidableEq

/-- Error log entry of the pipeline. -/
structure PipelineErrorEntry where
  partNumber : Nat
  attempt : Nat
  error : Str
  timestamp : Str
deriving Repr, DecidableEq

/-- Mutable state of a `HivePostingPipeline` instance.  The `attempts`
object (per-part attempt counters) is modelled as a map
`Nat → Option Nat` (`none` = key absent). -/
structure PState where
  manifest : Manifest
  contentParts : List PipelineContentElem
  author : Str
  currentPart : Nat
  attempts : Nat → Option Nat
  cancelled : Bool
  paused : Bool
  errors : List PipelineErrorEntry
  rootPermlink : Option Str

/-- Assignment `attempts[k] = v`. -/
def attemptsSet (a : Nat → Option Nat) (k v : Nat) : Nat → Option Nat :=
  fun j => if j = k then some v else a j

/-- Deletion `delete attempts[k]`. -/
def attemptsDelete (a : Nat → Option Nat) (k : Nat) : Nat → Option Nat :=
  fun j => if j = k then none else a j

/-- JavaScript truthiness of `attempts[k]`: absent or zero is falsy. -/
def jsFalsyAttempt (o : Option Nat) : Bool := o = none || o = some 0

/-- The state a freshly constructed pipeline starts from (constructor
validation — array shape, author truthiness, `validateManifest` — is
carried as theorem hypotheses). -/
def initialPState (manifest : Manifest) (contentParts : List PipelineContentElem)
    (author : Str) : PState :=
  { manifest := manifest, contentParts := contentParts, author := author,
    currentPart := 1, attempts := fun _ => none, cancelled := false,
    paused := false, errors := [], rootPermlink := none }

/-- Source function `_generatePostPayload(partNumber, content)` on a given
pipeline state (`content` is the value read off
`this.contentParts[partNumber - 1].content`, hence possibly undefined). -/
def generatePostPayload (st : PState) (partNumber : Nat) (content : Option Str) :
    Except Str PostPayload :=
  let baseTitle := if st.manifest.title = [] then "Untitled".toList else st.manifest.title
  let title := baseTitle ++ " [Part ".toList ++ natToStr partNumber ++
    "/".toList ++ natToStr st.manifest.total_parts ++ "]".toList
  (compactManifestForPost st.manifest partNumber).bind (fun compactManifest =>
    let bodyWithManifest := jsTemplate content ++
      "\n\n<!--ARCHIVE-MANIFEST:".toList ++ compactManifest ++ "-->".toList
    let suggestedPermlink := st.manifest.series_id.take 8 ++
      "-part-".toList ++ natToStr partNumber
    if partNumber = 1 then
      .ok { parent_author := [], author := st.author, title := title,
            body := bodyWithManifest, metaTags := st.manifest.tags,
            metaManifest := st.manifest, metaCurrentPart := partNumber,
            permlink := suggestedPermlink,
            parent_permlink := jsOrStr st.manifest.tags.head? "archive".toList }
    else
      if jsFalsyOptStr st.rootPermlink then
        .error ("Part ".toList ++ natToStr partNumber ++
          (" requires rootPermlink from Part 1, but it is not set." ++
            " Cannot post as threaded reply.").toList)
      else
        .ok { parent_author := st.author, author := st.author, title := title,
              body := bodyWithManifest, metaTags := st.manifest.tags,
              metaManifest := st.manifest, metaCurrentPart := partNumber,
              permlink := suggestedPermlink,
              parent_permlink := (st.rootPermlink).getD [] })

/-- Error classification buckets (`ERROR_TYPES`). -/
inductive ErrorType where
  | transient
  | permanent
  | cancelled
deriving Repr, DecidableEq

/-- ASCII lower-casing, as `toLowerCase` acts on these error messages. -/
def toLowerChar (c : Char) : Char :=
  if 'A'.toNat ≤ c.toNat ∧ c.toNat ≤ 'Z'.toNat then Char.ofNat (c.toNat + 32) else c

/-- Lower-cased string. -/
def strToLower (str : Str) : Str := str.map toLowerChar

/-- Model of `String.prototype.includes`. -/
def strIncludes (str sub : Str) : Bool := (indexOfAux sub str 0).isSome

/-- Source function `classifyError(error)`, on the error's message.
`errorString` is `error.toString().toLowerCase()`, i.e. the message behind
the standard `Error: ` prefix. -/
def classifyError (msg : Str) : ErrorType :=
  let errorMessage := strToLower msg
  let errorString := strToLower ("Error: ".toList ++ msg)
  if strIncludes errorMessage "auth".toList ||
      strIncludes errorMessage "permission".toList ||
      strIncludes errorMessage "unauthorized".toList ||
      strIncludes errorMessage "invalid key".toList ||
      strIncludes errorMessage "posting key".toList then
    .permanent
  else if strIncludes errorMessage "validation".toList ||
      strIncludes errorMessage "invalid".toList ||
      strIncludes errorMessage "missing required".toList ||
      strIncludes errorString "assert".toList then
    .permanent
  else if strIncludes errorMessage "cancel".toList ||
      strIncludes errorMessage "abort".toList then
    .cancelled
  else if strIncludes errorMessage "network".toList ||
      strIncludes errorMessage "timeout".toList ||
      strIncludes errorMessage "fetch".toList ||
      strIncludes errorMessage "connection".toList ||
      strIncludes errorMessage "rate limit".toList ||
      strIncludes errorString "networkerror".toList then
    .transient
  else .transient

/-- Retry configuration `RETRY_CONFIG`. -/
def RETRY_maxAttempts : Nat := 3

/-- Backoff delay table `RETRY_CONFIG.backoffDelays` (milliseconds). -/
def RETRY_backoffDelays : List Nat := [1000, 3000, 9000]

/-- Delay lookup `backoffDelays[attempt - 1] ||
backoffDelays[backoffDelays.length - 1]` (a missing or zero entry falls
back to the last entry). -/
def backoffDelayFor (attempt : Nat) : Nat :=
  match RETRY_backoffDelays.get? (attempt - 1) with
  | some d => if d = 0 then RETRY_backoffDelays.getLastD 0 else d
  | none => RETRY_backoffDelays.getLastD 0

/-- Successful transport response `{permlink, ...}` (only the permlink is
read). -/
structure TransportOk where
  permlink : Str
deriving Repr, DecidableEq

/-- Outcome of one transport call: a thrown error, a resolved null-ish
value, or a result object. -/
inductive TransportResult where
  | err (msg : Str)
  | ok (r : Option TransportOk)
deriving Repr, DecidableEq

/-- The object `_postPartWithRetry` resolves with. -/
structure RetryOutcome where
  success : Bool
  error : Option Str
  pausedFlag : Bool
deriving Repr, DecidableEq

/-- One attempt (and, on transient failure, the remaining retries) of the
`for (let attempt = 1; ...)` loop of `_postPartWithRetry`.  Returns the
updated state, the resolved outcome, the list of backoff sleeps awaited (in
order, milliseconds) and the number of transport calls made.  `fuel` keeps
the recursion structural; the loop bound is the source's
`attempt ≤ maxAttempts`, and the wrapper passes `fuel = maxAttempts`, which
always suffices since `attempt` starts at 1; the `fuel = 0` fallthrough is
the source's own unreachable `'Max retries exhausted'` return after the
loop. -/
def postPartAttempts (transport : Nat → Nat → PostPayload → TransportResult)
    (now : Str) (partNumber : Nat) (content : Option Str) :
    (fuel : Nat) → (attempt : Nat) → PState →
      PState × RetryOutcome × List Nat × Nat
  | 0, _, st =>
    (st, { success := false, error := some "Max retries exhausted".toList,
           pausedFlag := false }, [], 0)
  | fuel + 1, attempt, st =>
    if st.cancelled then
      (st, { success := false, error := some "Cancelled by user".toList,
             pausedFlag := false }, [], 0)
    else
      let st1 := { st with attempts := attemptsSet st.attempts partNumber attempt }
      -- the protected body: payload generation, transport call, result
      -- validation and manifest update can all throw into the catch
      let tryResult : Except (Str × Nat) (TransportOk × Manifest) :=
        match generatePostPayload st1 partNumber content with
        | .error msg => .error (msg, 0)
        | .ok payload =>
          match transport partNumber attempt payload with
          | .err msg => .error (msg, 1)
          | .ok none =>
            .error ("Transport function returned invalid result (missing permlink)".toList, 1)
          | .ok (some pr) =>
            if pr.permlink = [] then
              .error ("Transport function returned invalid result (missing permlink)".toList, 1)
            else
              match updateManifestWithPost st1.manifest partNumber
                  { permlink := some pr.permlink, author := some st1.author } now with
              | .error msg => .error (msg, 1)
              | .ok m2 => .ok (pr, m2)
      match tryResult with
      | .ok (pr, m2) =>
        let st2 := { st1 with manifest := m2 }
        let st3 :=
          if partNumber = 1 then
            { st2 with
              rootPermlink := some pr.permlink,
              manifest := { st2.manifest with root_permlink := some pr.permlink } }
          else st2
        let st4 := { st3 with
          manifest := { st3.manifest with
            parts := markPostedUpTo st3.manifest.parts partNumber } }
        let st5 :=
          if ¬ jsFalsyAttempt (st4.attempts partNumber) then
            { st4 with attempts := attemptsDelete st4.attempts partNumber }
          else st4
        (st5, { success := true, error := none, pausedFlag := false }, [], 1)
      | .error (msg, calls) =>
        let stE := { st1 with errors := st1.errors ++
          [{ partNumber := partNumber, attempt := attempt, error := msg,
             timestamp := now }] }
        match classifyError msg with
        | .permanent =>
          (stE, { success := false, error := some msg, pausedFlag := false },
           [], calls)
        | .cancelled =>
          (stE, { success := false, error := some "Cancelled by user".toList,
                  pausedFlag := false }, [], calls)
        | .transient =>
          if stE.cancelled then
            (stE, { success := false, error := some "Cancelled by user".toList,
                    pausedFlag := false }, [], calls)
          else if attempt < RETRY_maxAttempts then
            let rest := postPartAttempts transport now partNumber content fuel
              (attempt + 1) stE
            (rest.1, rest.2.1, backoffDelayFor attempt :: rest.2.2.1,
             calls + rest.2.2.2)
          else
            -- retries exhausted: markAsPaused, preserve state for resume
            let stP := { stE with paused := true }
            (stP, { success := false, error := some msg, pausedFlag := true },
             [], calls)

/-- Source function `_postPartWithRetry(partNumber)`.  The `part.content`
extraction happens before the loop and outside the try; an out-of-range
index makes the property access throw out of the whole routine, modelled by
the outer `Except`. -/
def postPartWithRetry (transport : Nat → Nat → PostPayload → TransportResult)
    (now : Str) (st : PState) (partNumber : Nat) :
    Except Str (PState × RetryOutcome × List Nat × Nat) :=
  match st.contentParts.get? (partNumber - 1) with
  | none => .error "TypeError: cannot read property content of undefined".toList
  | some elem =>
    let content := elem.contentField
    -- `if (!this.attempts[partNumber]) this.attempts[partNumber] = 0`
    let st0 :=
      if jsFalsyAttempt (st.attempts partNumber) then
        { st with attempts := attemptsSet st.attempts partNumber 0 }
      else st
    .ok (postPartAttempts transport now partNumber content RETRY_maxAttempts 1 st0)

/-- The interruptible 20-unit cooldown loop after a non-final part: one
sleep of 1000 ms per unit, stopping early when the cancelled flag is set
(the flag is constant within a closed run). -/
def cooldownLoop (cancelled : Bool) : Nat → List Nat
  | 0 => []
  | k + 1 => 1000 :: (if cancelled then [] else cooldownLoop cancelled k)

/-- Per-part effect log of a pipeline run. -/
structure PartRunLog where
  part : Nat
  retrySleeps : List Nat
  transportCalls : Nat
  cooldownSleeps : List Nat
deriving Repr, DecidableEq

/-- Terminal outcome of `start()`. -/
inductive StartOutcome where
  | success
  | cancelledOut (lastCompletedPart : Nat)
  | partFailed (failedPart : Nat) (error : Str)
  | blockedPaused
  | jsError (msg : Str)
deriving Repr, DecidableEq

/-- Source function `_getStatus()`: the derived overall pipeline status
persisted with every snapshot. -/
def pipelineStatus (st : PState) : Str :=
  if st.cancelled then "cancelled".toList
  else if st.paused then "paused".toList
  else if st.currentPart > st.manifest.total_parts then "completed".toList
  else
    match (st.manifest.parts.filter (fun p => p.status = "failed".toList)).head? with
    | some p =>
      if st.currentPart > p.part_number then "failed".toList
      else "in_progress".toList
    | none => "in_progress".toList

/-- The `while (this.currentPart <= this.manifest.total_parts)` loop of
`start()`.  Returns the final state, the terminal outcome and the per-part
effect log.  `fuel` keeps the recursion structural; the wrapper passes
`total_parts + 2`, which always suffices since the pointer increases by one
per iteration.  `blockedPaused` models the busy-wait
`while (this.paused && !this.cancelled)`, which cannot terminate inside a
closed run (no external actor can clear the flag); `jsError` models an
exception escaping to `start()`'s catch, which rethrows. -/
def startLoop (transport : Nat → Nat → PostPayload → TransportResult) (now : Str) :
    (fuel : Nat) → PState → PState × StartOutcome × List PartRunLog
  | 0, st => (st, .jsError "loop budget exhausted (unreachable)".toList, [])
  | fuel + 1, st =>
    if st.currentPart > st.manifest.total_parts then
      -- all parts posted: success, persisted state cleared
      (st, .success, [])
    else if st.cancelled then
      (st, .cancelledOut (st.currentPart - 1), [])
    else if st.paused then
      (st, .blockedPaused, [])
    else
      match postPartWithRetry transport now st st.currentPart with
      | .error msg => (st, .jsError msg, [])
      | .ok (st1, outcome, sleeps, calls) =>
        if outcome.success = false then
          (st1, .partFailed st.currentPart (outcome.error.getD []),
           [{ part := st.currentPart, retrySleeps := sleeps,
              transportCalls := calls, cooldownSleeps := [] }])
        else
          let isLast := st1.currentPart = st1.manifest.total_parts
          let cooldown := if isLast then [] else cooldownLoop st1.cancelled 20
          let log : PartRunLog :=
            { part := st.currentPart, retrySleeps := sleeps,
              transportCalls := calls, cooldownSleeps := cooldown }
          if st1.cancelled then
            (st1, .cancelledOut st1.currentPart, [log])
          else
            let st2 := { st1 with currentPart := st1.currentPart + 1 }
            let rest := startLoop transport now fuel st2
            (rest.1, rest.2.1, log :: rest.2.2)

/-- Source method `start()`: resets the cancelled/paused flags, then runs
the posting loop from the current pointer. -/
def startRun (transport : Nat → Nat → PostPayload → TransportResult) (now : Str)
    (st : PState) : PState × StartOutcome × List PartRunLog :=
  startLoop transport now (st.manifest.total_parts + 2)
    { st with cancelled := false, paused := false }

/-! Resume verifier (C2).  The ledger query `window.getHiveContent` is an
external collaborator, modelled as an oracle from the stored author/locator
pair to either a thrown error, no post, or a post record. -/

/-- The fetched post (only `body` is read). -/
structure FetchedPost where
  body : Option Str
deriving Repr, DecidableEq

/-- Outcome of one `getHiveContent` call. -/
inductive FetchResult where
  | thrown (msg : Str)
  | got (post : Option FetchedPost)
deriving Repr, DecidableEq

/-- Result shape of `verifyCompletedParts`. -/
structure VerifyPartsResult where
  verified : List Nat
  failed : List Nat
  missing : List Nat
  totalChecked : Nat
deriving Repr, DecidableEq

/-- The per-part loop of `verifyCompletedParts`, with the array index `i`
explicit and the result object threaded as an accumulator (entries are
appended in loop order). -/
def verifyPartsAux (sha : Str → Str) (blake : Option (Str → Str)) (md5F : Str → Str)
    (fetch : Option Str → Option Str → FetchResult)
    (partHashes : Option (List PartHashEntry)) :
    Nat → List PartRecord → VerifyPartsResult → VerifyPartsResult
  | _, [], acc => acc
  | i, part :: rest, acc =>
    if part.status ≠ "posted".toList then
      -- not marked posted: never attempted, classified missing
      verifyPartsAux sha blake md5F fetch partHashes (i + 1) rest
        { acc with missing := acc.missing ++ [part.part_number] }
    else
      let acc1 := { acc with totalChecked := acc.totalChecked + 1 }
      match fetch part.author part.permlink with
      | .thrown _ =>
        verifyPartsAux sha blake md5F fetch partHashes (i + 1) rest
          { acc1 with failed := acc1.failed ++ [part.part_number] }
      | .got post =>
        match post with
        | none =>
          verifyPartsAux sha blake md5F fetch partHashes (i + 1) rest
            { acc1 with failed := acc1.failed ++ [part.part_number] }
        | some p =>
          if jsFalsyOptStr p.body then
            verifyPartsAux sha blake md5F fetch partHashes (i + 1) rest
              { acc1 with failed := acc1.failed ++ [part.part_number] }
          else
            let body := p.body.getD []
            let hashCheckFailed :=
              match partHashes with
              | none => false
              | some hs =>
                match hs.get? i with
                | none => false
                | some expected =>
                  (hashString sha blake md5F body).sha256 ≠ expected.sha256
            if hashCheckFailed then
              verifyPartsAux sha blake md5F fetch partHashes (i + 1) rest
                { acc1 with failed := acc1.failed ++ [part.part_number] }
            else
              verifyPartsAux sha blake md5F fetch partHashes (i + 1) rest
                { acc1 with verified := acc1.verified ++ [part.part_number] }

/-- Source function `verifyCompletedParts(manifest, partHashes)`.  Note
that the source hashes `post.body` directly — it never calls
`stripManifestComment` before hashing. -/
def verifyCompletedParts (sha : Str → Str) (blake : Option (Str → Str))
    (md5F : Str → Str) (fetch : Option Str → Option Str → FetchResult)
    (manifest : Manifest) (partHashes : Option (List PartHashEntry)) :
    VerifyPartsResult :=
  verifyPartsAux sha blake md5F fetch partHashes 0 manifest.parts
    { verified := [], failed := [], missing := [], totalChecked := 0 }

/-! C3: the publish payload. -/

/-- Concrete manifest for the C3 counterexample and witness. -/
def c3m : Manifest :=
  { series_id := "s".toList, version := "1".toList, source_url := "u".toList,
    title := "t".toList, total_parts := 1, root_permlink := none,
    content_hash_full := { sha256 := "h".toList, blake2b := none, md5 := "h".toList },
    tags := [],
    parts := [{ part_number := 1, permlink := none, author := none,
                status := "pending".toList }] }

/-- C3 (counterexample): a pipeline constructed with `contentParts` being
the list of part content *strings* — exactly what the constructor's doc
comment and usage example show — does not publish the part content.
`_postPartWithRetry` reads `this.contentParts[partIndex].content`, which on
a bare string is JavaScript `undefined`, so the generated body starts with
the nine characters `undefined` instead of the part's content `hello`. -/
theorem generatePostPayload_string_contentParts_counterexample :
    (generatePostPayload
        (initialPState c3m [PipelineContentElem.str "hello".toList] "alice".toList)
        1 ((PipelineContentElem.str "hello".toList).contentField)).map
      (fun p => (p.body.take 9, "hello".toList.isPrefixOf p.body)) =
      .ok ("undefined".toList, false) := by
  decide

/-- C3 (amended): with `contentParts` holding the splitter's part records —
whose `content` field carries the part's content string, as the
`_postPartWithRetry` extraction `part.content` expects — the generated
publish payload is as claimed: title is the manifest title suffixed with
the part index, body is the part content followed by the embedded
compact-manifest marker comment, the parent author reference is empty for
part 1, and for part n ≥ 2 the parent reference is the pipeline author
together with the root locator captured from part 1; generating the payload
for part n ≥ 2 with no (or an empty) root locator raises an error. -/
theorem generatePostPayload_spec :
    (∀ (p : ContentPart), (PipelineContentElem.part p).contentField = some p.content) ∧
    (∀ (st : PState) (n : Nat) (c : Str) (payload : PostPayload),
      st.manifest.title ≠ [] →
      generatePostPayload st n (some c) = .ok payload →
      payload.title = st.manifest.title ++ " [Part ".toList ++ natToStr n ++
        "/".toList ++ natToStr st.manifest.total_parts ++ "]".toList ∧
      (∃ cm, compactManifestForPost st.manifest n = .ok cm ∧
        payload.body = c ++ "\n\n<!--ARCHIVE-MANIFEST:".toList ++ cm ++
          "-->".toList) ∧
      (n = 1 → payload.parent_author = []) ∧
      (2 ≤ n → ∃ rp, st.rootPermlink = some rp ∧ rp ≠ [] ∧
        payload.parent_author = st.author ∧ payload.parent_permlink = rp)) ∧
    (∀ (st : PState) (n : Nat) (c : Option Str), 2 ≤ n →
      jsFalsyOptStr st.rootPermlink = true →
      ∃ msg, generatePostPayload st n c = .error msg) := by
  refine ⟨fun p => rfl, ?_, ?_⟩
  · intro st n c payload htitle h
    rw [generatePostPayload] at h
    cases hcm : compactManifestForPost st.manifest n with
    | error e => rw [hcm] at h; exact absurd h (by simp [Except.bind])
    | ok cm =>
      rw [hcm] at h
      simp only [Except.bind] at h
      by_cases hn : n = 1
      · rw [if_pos hn] at h
        simp only [Except.ok.injEq] at h
        subst h
        refine ⟨by simp [if_neg htitle], ⟨cm, rfl, by simp [jsTemplate]⟩, fun _ => rfl, ?_⟩
        intro h2
        omega
      · rw [if_neg hn] at h
        cases hfal : jsFalsyOptStr st.rootPermlink with
        | true => rw [hfal] at h; simp at h
        | false =>
          rw [hfal] at h
          simp only [Bool.false_eq_true, if_false, Except.ok.injEq] at h
          subst h
          have hrp : ∃ rp, st.rootPermlink = some rp ∧ rp ≠ [] := by
            cases hr : st.rootPermlink with
            | none => rw [jsFalsyOptStr, hr] at hfal; simp at hfal
            | some rp =>
              refine ⟨rp, rfl, ?_⟩
              intro hnil
              subst hnil
              rw [jsFalsyOptStr, hr] at hfal
              simp at hfal
          obtain ⟨rp, hrp, hrpne⟩ := hrp
          refine ⟨by simp [if_neg htitle], ⟨cm, rfl, by simp [jsTemplate]⟩,
            fun h1 => absurd h1 hn, ?_⟩
          intro _
          exact ⟨rp, hrp, hrpne, rfl, by simp [hrp]⟩
  · intro st n c h2 hfal
    rw [generatePostPayload]
    cases hcm : compactManifestForPost st.manifest n with
    | error e => exact ⟨e, by simp [Except.bind]⟩
    | ok cm =>
      have hn : n ≠ 1 := by omega
      refine ⟨"Part ".toList ++ natToStr n ++
        (" requires rootPermlink from Part 1, but it is not set." ++
          " Cannot post as threaded reply.").toList, ?_⟩
      simp only [Except.bind, if_neg hn, hfal, if_true]

/-- Pipeline state for the C3 witness: constructed with the splitter's part
record as the single `contentParts` element. -/
def c3st1 : PState :=
  initialPState c3m
    [PipelineContentElem.part
      { partNumber := 1, totalParts := 1, content := "hello".toList,
        byteSize := 0, wordCount := 1, boundary := [] }] "alice".toList

/-- Payload computed for the C3 witness (part records in `contentParts`). -/
def c3pay : PostPayload :=
  ((generatePostPayload c3st1 1 (some "hello".toList)).toOption).getD
    { parent_author := [], author := [], title := [], body := [], metaTags := [],
      metaManifest := c3m, metaCurrentPart := 0, permlink := [],
      parent_permlink := [] }

/-- A second pipeline state (two parts, no root locator yet) for the
error half of the C3 witness. -/
def c3st2 : PState :=
  initialPState
    { c3m with
      total_parts := 2,
      parts := [{ part_number := 1, permlink := none, author := none,
                  status := "pending".toList },
                { part_number := 2, permlink := none, author := none,
                  status := "pending".toList }] }
    [PipelineContentElem.str "x".toList, PipelineContentElem.str "y".toList]
    "alice".toList

/-- Witness for the amended C3 at concrete inputs. -/
theorem generatePostPayload_spec_witness :
    ((PipelineContentElem.part
        { partNumber := 1, totalParts := 1, content := "hello".toList,
          byteSize := 0, wordCount := 1, boundary := [] }).contentField =
      some "hello".toList) ∧
    (c3pay.title = c3st1.manifest.title ++ " [Part ".toList ++ natToStr 1 ++
        "/".toList ++ natToStr c3st1.manifest.total_parts ++ "]".toList ∧
      (∃ cm, compactManifestForPost c3st1.manifest 1 = .ok cm ∧
        c3pay.body = "hello".toList ++ "\n\n<!--ARCHIVE-MANIFEST:".toList ++ cm ++
          "-->".toList) ∧
      (1 = 1 → c3pay.parent_author = []) ∧
      (2 ≤ 1 → ∃ rp, c3st1.rootPermlink = some rp ∧ rp ≠ [] ∧
        c3pay.parent_author = c3st1.author ∧ c3pay.parent_permlink = rp)) ∧
    (∃ msg, generatePostPayload c3st2 2 none = .error msg) := by
  refine ⟨generatePostPayload_spec.1 _, ?_, ?_⟩
  · exact generatePostPayload_spec.2.1 c3st1 1 "hello".toList c3pay (by decide)
      (by decide)
  · exact generatePostPayload_spec.2.2 c3st2 2 none (by decide) (by decide)

/-! C2: the resume verifier never strips the embedded manifest marker. -/

/-- Manifest for the C2 scenario: one part, already posted with its
locators recorded. -/
def c2m : Manifest :=
  { series_id := "s".toList, version := "1".toList, source_url := "u".toList,
    title := "t".toList, total_parts := 1, root_permlink := some "p1".toList,
    content_hash_full := { sha256 := "h".toList, blake2b := none, md5 := "h".toList },
    tags := [],
    parts := [{ part_number := 1, permlink := some "p1".toList,
                author := some "alice".toList, status := "posted".toList }] }

/-- The body the pipeline published for part 1 of `c2m`: the part content
`"hello"` followed by the embedded compact-manifest marker, exactly as
`_generatePostPayload` builds it. -/
def c2body : Str :=
  (((generatePostPayload
      (initialPState c2m
        [PipelineContentElem.part
          { partNumber := 1, totalParts := 1, content := "hello".toList,
            byteSize := 0, wordCount := 1, boundary := [] }] "alice".toList)
      1 (some "hello".toList)).toOption).getD
    { parent_author := [], author := [], title := [], body := [], metaTags := [],
      metaManifest := c2m, metaCurrentPart := 0, permlink := [],
      parent_permlink := [] }).body

/-- C2 (code bug): `verifyCompletedParts` hashes the fetched `post.body`
without first calling `stripManifestComment` — although that function's own
doc comment states content fetched during verification "must be stripped
before hashing".  With the identity digest standing in for SHA-256, the
expected per-part digest of part 1 is the clean content `"hello"`; the
publish target returns the published body (content plus embedded marker)
unmodified, yet the part classifies as `failed`, not `verified` (first
result).  Stripping the marker first recovers exactly `"hello"`, whose
digest matches (second component); feeding the verifier the stripped body
classifies the part as `verified` (third result), which is what the claim
and the spec prescribe. -/
theorem verifyCompletedParts_fails_on_unstripped_marker :
    verifyCompletedParts (fun s => s) none (fun s => s)
        (fun _ _ => .got (some { body := some c2body })) c2m
        (some [{ part_number := 1, sha256 := "hello".toList, blake2b := none,
                 md5 := "hello".toList }]) =
      { verified := [], failed := [1], missing := [], totalChecked := 1 } ∧
    stripManifestComment c2body = "hello".toList ∧
    verifyCompletedParts (fun s => s) none (fun s => s)
        (fun _ _ => .got (some { body := some (stripManifestComment c2body) })) c2m
        (some [{ part_number := 1, sha256 := "hello".toList, blake2b := none,
                 md5 := "hello".toList }]) =
      { verified := [1], failed := [], missing := [], totalChecked := 1 } := by
  refine ⟨by decide, by decide, by decide⟩

/-! Infrastructure for the pipeline-run theorems (C5, C6). -/

/-- Boolean success test on an `Except`. -/
def exceptOk {α : Type} : Except Str α → Bool
  | .ok _ => true
  | .error _ => false

/-- The manifest fields the compact encoding and the payload title read —
none of which the pipeline's mutations touch. -/
def manifestStaticEq (m1 m2 : Manifest) : Prop :=
  m1.series_id = m2.series_id ∧ m1.version = m2.version ∧
  m1.source_url = m2.source_url ∧ m1.title = m2.title ∧
  m1.total_parts = m2.total_parts ∧ m1.content_hash_full = m2.content_hash_full ∧
  m1.tags = m2.tags

theorem manifestStaticEq_refl (m : Manifest) : manifestStaticEq m m :=
  ⟨rfl, rfl, rfl, rfl, rfl, rfl, rfl⟩

theorem manifestStaticEq_trans {m1 m2 m3 : Manifest}
    (h12 : manifestStaticEq m1 m2) (h23 : manifestStaticEq m2 m3) :
    manifestStaticEq m1 m3 := by
  obtain ⟨a1, a2, a3, a4, a5, a6, a7⟩ := h12
  obtain ⟨b1, b2, b3, b4, b5, b6, b7⟩ := h23
  exact ⟨a1.trans b1, a2.trans b2, a3.trans b3, a4.trans b4, a5.trans b5,
    a6.trans b6, a7.trans b7⟩

theorem compactManifestForPost_staticEq {m1 m2 : Manifest} (p : Nat)
    (h : manifestStaticEq m1 m2) :
    compactManifestForPost m1 p = compactManifestForPost m2 p := by
  obtain ⟨h1, h2, h3, _, h5, h6, _⟩ := h
  rw [compactManifestForPost, compactManifestForPost,
    compactManifestJson, compactManifestJson, h1, h2, h3, h5, h6]

/-- The payload generator reads only the manifest, the root locator and the
author off the pipeline state. -/
theorem generatePostPayload_congr {st st' : PState} (n : Nat) (c : Option Str)
    (hm : st'.manifest = st.manifest) (hr : st'.rootPermlink = st.rootPermlink)
    (ha : st'.author = st.author) :
    generatePostPayload st' n c = generatePostPayload st n c := by
  rw [generatePostPayload, generatePostPayload, hm, hr, ha]

theorem generatePostPayload_ok (st : PState) (n : Nat) (c : Option Str)
    (hcm : exceptOk (compactManifestForPost st.manifest n) = true)
    (hroot : n = 1 ∨ jsFalsyOptStr st.rootPermlink = false) :
    ∃ pay, generatePostPayload st n c = .ok pay := by
  rw [generatePostPayload]
  cases hc : compactManifestForPost st.manifest n with
  | error e => rw [hc] at hcm; simp [exceptOk] at hcm
  | ok cm =>
    simp only [Except.bind]
    by_cases hn : n = 1
    · exact ⟨_, by rw [if_pos hn]⟩
    · have hfal : jsFalsyOptStr st.rootPermlink = false := by
        rcases hroot with h | h
        · exact absurd h hn
        · exact h
      exact ⟨_, by
        rw [if_neg hn, hfal, if_neg (show ¬(false = true) by simp)]⟩

theorem markPostedUpToAux_length (pn : Nat) :
    ∀ (l : List PartRecord) (i : Nat), (markPostedUpToAux pn i l).length = l.length := by
  intro l
  induction l with
  | nil => intro i; rfl
  | cons p rest ih => intro i; simp [markPostedUpToAux, ih]

theorem markPostedUpToAux_getElem? (pn : Nat) :
    ∀ (l : List PartRecord) (i j : Nat),
      (markPostedUpToAux pn i l)[j]? = (l[j]?).map (fun p =>
        if i + j ≤ pn then
          (if p.status ≠ "posted".toList then { p with status := "posted".toList }
           else p)
        else p) := by
  intro l
  induction l with
  | nil => intro i j; simp [markPostedUpToAux]
  | cons p rest ih =>
    intro i j
    cases j with
    | zero => simp [markPostedUpToAux]
    | succ j =>
      simp only [markPostedUpToAux, List.getElem?_cons_succ, ih (i + 1) j]
      have : i + 1 + j = i + (j + 1) := by omega
      rw [this]

theorem attemptsSet_set (a : Nat → Option Nat) (k v w : Nat) :
    attemptsSet (attemptsSet a k v) k w = attemptsSet a k w := by
  funext j
  by_cases h : j = k <;> simp [attemptsSet, h]

/-- The record written for part `p` on the success path. -/
def postedRecord (p : Nat) (lk author now : Str) : PartRecord :=
  { part_number := p, permlink := some lk, author := some author,
    status := "posted".toList, posted_at := some now }

/-- One successful iteration of the retry loop: the transport resolves with
a non-empty permlink, the manifest is updated, the root locator is captured
for part 1, prior parts are status-corrected and the attempt counter is
cleared. -/
theorem postPartAttempts_success (transport : Nat → Nat → PostPayload → TransportResult)
    (now : Str) (p : Nat) (content : Option Str) (fuel attempt : Nat) (st : PState)
    (lk : Str)
    (hfuel : 1 ≤ fuel)
    (hc : st.cancelled = false)
    (hat : attempt ≠ 0)
    (hp1 : 1 ≤ p) (hpT : p ≤ st.manifest.total_parts)
    (hlen : st.manifest.parts.length = st.manifest.total_parts)
    (hcm : exceptOk (compactManifestForPost st.manifest p) = true)
    (hroot : p = 1 ∨ jsFalsyOptStr st.rootPermlink = false)
    (htr : ∀ a pay, transport p a pay = TransportResult.ok (some ⟨lk⟩))
    (hlk : lk ≠ []) :
    ∃ st', postPartAttempts transport now p content fuel attempt st =
        (st', { success := true, error := none, pausedFlag := false }, [], 1) ∧
      st'.currentPart = st.currentPart ∧
      st'.cancelled = false ∧
      st'.paused = st.paused ∧
      st'.contentParts = st.contentParts ∧
      st'.author = st.author ∧
      st'.errors = st.errors ∧
      (∀ j, j ≠ p → st'.attempts j = st.attempts j) ∧
      st'.attempts p = none ∧
      manifestStaticEq st'.manifest st.manifest ∧
      st'.manifest.parts.length = st.manifest.parts.length ∧
      st'.rootPermlink = (if p = 1 then some lk else st.rootPermlink) ∧
      st'.manifest.parts[p - 1]? = some (postedRecord p lk st.author now) ∧
      (∀ j, j + 1 < p → st'.manifest.parts[j]? = (st.manifest.parts[j]?).map
        (fun q => if q.status ≠ "posted".toList then
          { q with status := "posted".toList } else q)) := by
  obtain ⟨f, rfl⟩ : ∃ f, fuel = f + 1 := ⟨fuel - 1, by omega⟩
  obtain ⟨pay, hpay⟩ := generatePostPayload_ok st p content hcm hroot
  have hpay1 : generatePostPayload
      { manifest := st.manifest, contentParts := st.contentParts,
        author := st.author, currentPart := st.currentPart,
        attempts := attemptsSet st.attempts p attempt, cancelled := false,
        paused := st.paused, errors := st.errors,
        rootPermlink := st.rootPermlink } p content =
      .ok pay := (generatePostPayload_congr p content rfl rfl rfl).trans hpay
  have hupd : updateManifestWithPost st.manifest p
      { permlink := some lk, author := some st.author } now =
      .ok { st.manifest with
        parts := st.manifest.parts.set (p - 1) (postedRecord p lk st.author now) } := by
    rw [updateManifestWithPost, if_neg (by omega)]
    rfl
  simp only [postPartAttempts, hc, Bool.false_eq_true, if_false, hpay1, htr,
    if_neg hlk, hupd]
  refine ⟨_, rfl, ?_, ?_, ?_, ?_, ?_, ?_, ?_, ?_, ?_, ?_, ?_, ?_, ?_⟩
  · by_cases hp : p = 1 <;>
      simp [hp, attemptsSet, attemptsDelete, jsFalsyAttempt, hat]
  · by_cases hp : p = 1 <;>
      simp [hp, attemptsSet, attemptsDelete, jsFalsyAttempt, hat]
  · by_cases hp : p = 1 <;>
      simp [hp, attemptsSet, attemptsDelete, jsFalsyAttempt, hat]
  · by_cases hp : p = 1 <;>
      simp [hp, attemptsSet, attemptsDelete, jsFalsyAttempt, hat]
  · by_cases hp : p = 1 <;>
      simp [hp, attemptsSet, attemptsDelete, jsFalsyAttempt, hat]
  · by_cases hp : p = 1 <;>
      simp [hp, attemptsSet, attemptsDelete, jsFalsyAttempt, hat]
  · intro j hj
    by_cases hp : p = 1
    · subst hp
      simp [attemptsSet, attemptsDelete, jsFalsyAttempt, hat, hj]
    · simp [hp, attemptsSet, attemptsDelete, jsFalsyAttempt, hat, hj]
  · by_cases hp : p = 1 <;>
      simp [hp, attemptsSet, attemptsDelete, jsFalsyAttempt, hat]
  · by_cases hp : p = 1 <;>
      simp [hp, attemptsSet, attemptsDelete, jsFalsyAttempt, hat,
        manifestStaticEq]
  · by_cases hp : p = 1 <;>
      simp [hp, attemptsSet, attemptsDelete, jsFalsyAttempt, hat,
        markPostedUpTo, markPostedUpToAux_length]
  · by_cases hp : p = 1 <;>
      simp [hp, attemptsSet, attemptsDelete, jsFalsyAttempt, hat]
  · have hplt : p - 1 < st.manifest.parts.length := by omega
    by_cases hp : p = 1
    · subst hp
      simp [attemptsSet, attemptsDelete, jsFalsyAttempt, hat,
        markPostedUpTo, markPostedUpToAux_getElem?,
        List.getElem?_set_self (show (0:Nat) < st.manifest.parts.length by omega),
        postedRecord]
    · have h1p : 1 + (p - 1) ≤ p := by omega
      simp [hp, attemptsSet, attemptsDelete, jsFalsyAttempt, hat,
        markPostedUpTo, markPostedUpToAux_getElem?, List.getElem?_set, hplt,
        h1p, postedRecord]
  · intro j hj
    have hne : p - 1 ≠ j := by omega
    by_cases hp : p = 1
    · omega
    · have h1j : 1 + j ≤ p := by omega
      simp [hp, attemptsSet, attemptsDelete, jsFalsyAttempt, hat,
        markPostedUpTo, markPostedUpToAux_getElem?, List.getElem?_set_ne hne,
        h1j]

/-- One failing attempt below the ceiling: the error is logged, classified
transient, the backoff delay for this attempt is awaited, and the loop
retries. -/
theorem postPartAttempts_err_step (transport : Nat → Nat → PostPayload → TransportResult)
    (now : Str) (n : Nat) (content : Option Str) (fuel fuel' attempt attempt' : Nat)
    (st : PState) (msg : Str)
    (hc : st.cancelled = false)
    (hcm : exceptOk (compactManifestForPost st.manifest n) = true)
    (hroot : n = 1 ∨ jsFalsyOptStr st.rootPermlink = false)
    (htr : ∀ pay, transport n attempt pay = TransportResult.err msg)
    (hclass : classifyError msg = .transient)
    (hlt : attempt < RETRY_maxAttempts)
    (hfuel : fuel = fuel' + 1) (hatt : attempt' = attempt + 1) :
    postPartAttempts transport now n content fuel attempt st =
      ((postPartAttempts transport now n content fuel' attempt'
          { manifest := st.manifest, contentParts := st.contentParts,
            author := st.author, currentPart := st.currentPart,
            attempts := attemptsSet st.attempts n attempt, cancelled := false,
            paused := st.paused,
            errors := st.errors ++
              [{ partNumber := n, attempt := attempt, error := msg,
                 timestamp := now }],
            rootPermlink := st.rootPermlink }).1,
       (postPartAttempts transport now n content fuel' attempt'
          { manifest := st.manifest, contentParts := st.contentParts,
            author := st.author, currentPart := st.currentPart,
            attempts := attemptsSet st.attempts n attempt, cancelled := false,
            paused := st.paused,
            errors := st.errors ++
              [{ partNumber := n, attempt := attempt, error := msg,
                 timestamp := now }],
            rootPermlink := st.rootPermlink }).2.1,
       backoffDelayFor attempt ::
         (postPartAttempts transport now n content fuel' attempt'
          { manifest := st.manifest, contentParts := st.contentParts,
            author := st.author, currentPart := st.currentPart,
            attempts := attemptsSet st.attempts n attempt, cancelled := false,
            paused := st.paused,
            errors := st.errors ++
              [{ partNumber := n, attempt := attempt, error := msg,
                 timestamp := now }],
            rootPermlink := st.rootPermlink }).2.2.1,
       1 + (postPartAttempts transport now n content fuel' attempt'
          { manifest := st.manifest, contentParts := st.contentParts,
            author := st.author, currentPart := st.currentPart,
            attempts := attemptsSet st.attempts n attempt, cancelled := false,
            paused := st.paused,
            errors := st.errors ++
              [{ partNumber := n, attempt := attempt, error := msg,
                 timestamp := now }],
            rootPermlink := st.rootPermlink }).2.2.2) := by
  subst hfuel hatt
  obtain ⟨pay, hpay⟩ := generatePostPayload_ok st n content hcm hroot
  have hpay1 : generatePostPayload
      { manifest := st.manifest, contentParts := st.contentParts,
        author := st.author, currentPart := st.currentPart,
        attempts := attemptsSet st.attempts n attempt, cancelled := false,
        paused := st.paused, errors := st.errors,
        rootPermlink := st.rootPermlink } n content =
      .ok pay := (generatePostPayload_congr n content rfl rfl rfl).trans hpay
  simp only [postPartAttempts, hc, Bool.false_eq_true, if_false, hpay1, htr,
    hclass, hlt, if_true, if_pos hlt]

/-- The third failing attempt: the ceiling is reached, the pipeline marks
itself paused and resolves with `paused: true`. -/
theorem postPartAttempts_err_exhaust (transport : Nat → Nat → PostPayload → TransportResult)
    (now : Str) (n : Nat) (content : Option Str) (fuel attempt : Nat) (st : PState)
    (msg : Str)
    (hfuel : 1 ≤ fuel) (hatt : attempt = RETRY_maxAttempts)
    (hc : st.cancelled = false)
    (hcm : exceptOk (compactManifestForPost st.manifest n) = true)
    (hroot : n = 1 ∨ jsFalsyOptStr st.rootPermlink = false)
    (htr : ∀ pay, transport n attempt pay = TransportResult.err msg)
    (hclass : classifyError msg = .transient) :
    postPartAttempts transport now n content fuel attempt st =
      ({ manifest := st.manifest, contentParts := st.contentParts,
         author := st.author, currentPart := st.currentPart,
         attempts := attemptsSet st.attempts n attempt,
         cancelled := false, paused := true,
         errors := st.errors ++
           [{ partNumber := n, attempt := attempt, error := msg,
              timestamp := now }],
         rootPermlink := st.rootPermlink },
       { success := false, error := some msg, pausedFlag := true }, [], 1) := by
  subst hatt
  obtain ⟨f, rfl⟩ : ∃ f, fuel = f + 1 := ⟨fuel - 1, by omega⟩
  obtain ⟨pay, hpay⟩ := generatePostPayload_ok st n content hcm hroot
  have hpay1 : generatePostPayload
      { manifest := st.manifest, contentParts := st.contentParts,
        author := st.author, currentPart := st.currentPart,
        attempts := attemptsSet st.attempts n RETRY_maxAttempts,
        cancelled := false, paused := st.paused, errors := st.errors,
        rootPermlink := st.rootPermlink } n content =
      .ok pay := (generatePostPayload_congr n content rfl rfl rfl).trans hpay
  simp only [postPartAttempts, hc, Bool.false_eq_true, if_false, hpay1, htr,
    hclass, Nat.lt_irrefl, if_neg (Nat.lt_irrefl RETRY_maxAttempts)]

/-- A failing attempt whose error classifies as permanent: no retry, no
backoff, the loop resolves immediately with the error. -/
theorem postPartAttempts_permanent (transport : Nat → Nat → PostPayload → TransportResult)
    (now : Str) (n : Nat) (content : Option Str) (fuel attempt : Nat) (st : PState)
    (msg : Str)
    (hfuel : 1 ≤ fuel)
    (hc : st.cancelled = false)
    (hcm : exceptOk (compactManifestForPost st.manifest n) = true)
    (hroot : n = 1 ∨ jsFalsyOptStr st.rootPermlink = false)
    (htr : ∀ pay, transport n attempt pay = TransportResult.err msg)
    (hclass : classifyError msg = .permanent) :
    postPartAttempts transport now n content fuel attempt st =
      ({ manifest := st.manifest, contentParts := st.contentParts,
         author := st.author, currentPart := st.currentPart,
         attempts := attemptsSet st.attempts n attempt,
         cancelled := false, paused := st.paused,
         errors := st.errors ++
           [{ partNumber := n, attempt := attempt, error := msg,
              timestamp := now }],
         rootPermlink := st.rootPermlink },
       { success := false, error := some msg, pausedFlag := false }, [], 1) := by
  obtain ⟨f, rfl⟩ : ∃ f, fuel = f + 1 := ⟨fuel - 1, by omega⟩
  obtain ⟨pay, hpay⟩ := generatePostPayload_ok st n content hcm hroot
  have hpay1 : generatePostPayload
      { manifest := st.manifest, contentParts := st.contentParts,
        author := st.author, currentPart := st.currentPart,
        attempts := attemptsSet st.attempts n attempt,
        cancelled := false, paused := st.paused, errors := st.errors,
        rootPermlink := st.rootPermlink } n content =
      .ok pay := (generatePostPayload_congr n content rfl rfl rfl).trans hpay
  simp only [postPartAttempts, hc, Bool.false_eq_true, if_false, hpay1, htr,
    hclass]

/-- The full retry loop under an always-transient transport failure: three
attempts, backoff sleeps of 1000 ms and 3000 ms between them, then the
pipeline pauses. -/
theorem postPartAttempts_transient_run (transport : Nat → Nat → PostPayload → TransportResult)
    (now : Str) (n : Nat) (content : Option Str) (st : PState) (msg : Str)
    (hc : st.cancelled = false)
    (hcm : exceptOk (compactManifestForPost st.manifest n) = true)
    (hroot : n = 1 ∨ jsFalsyOptStr st.rootPermlink = false)
    (htr : ∀ a pay, transport n a pay = TransportResult.err msg)
    (hclass : classifyError msg = .transient) :
    postPartAttempts transport now n content RETRY_maxAttempts 1 st =
      ({ manifest := st.manifest, contentParts := st.contentParts,
         author := st.author, currentPart := st.currentPart,
         attempts := attemptsSet st.attempts n 3,
         cancelled := false, paused := true,
         errors := st.errors ++
           [{ partNumber := n, attempt := 1, error := msg, timestamp := now }] ++
           [{ partNumber := n, attempt := 2, error := msg, timestamp := now }] ++
           [{ partNumber := n, attempt := 3, error := msg, timestamp := now }],
         rootPermlink := st.rootPermlink },
       { success := false, error := some msg, pausedFlag := true },
       [1000, 3000], 3) := by
  rw [postPartAttempts_err_step transport now n content RETRY_maxAttempts 2 1 2 st
    msg hc hcm hroot (htr 1) hclass (by decide) rfl rfl]
  rw [postPartAttempts_err_step transport now n content 2 1 2 3
    { manifest := st.manifest, contentParts := st.contentParts,
      author := st.author, currentPart := st.currentPart,
      attempts := attemptsSet st.attempts n 1, cancelled := false,
      paused := st.paused,
      errors := st.errors ++
        [{ partNumber := n, attempt := 1, error := msg, timestamp := now }],
      rootPermlink := st.rootPermlink }
    msg rfl hcm hroot (htr 2) hclass (by decide) rfl rfl]
  rw [postPartAttempts_err_exhaust transport now n content 1 3
    { manifest := st.manifest, contentParts := st.contentParts,
      author := st.author, currentPart := st.currentPart,
      attempts := attemptsSet (attemptsSet st.attempts n 1) n 2,
      cancelled := false, paused := st.paused,
      errors := st.errors ++
        [{ partNumber := n, attempt := 1, error := msg, timestamp := now }] ++
        [{ partNumber := n, attempt := 2, error := msg, timestamp := now }],
      rootPermlink := st.rootPermlink }
    msg (by decide) (by decide) rfl hcm hroot (htr 3) hclass]
  simp [attemptsSet_set, backoffDelayFor, RETRY_backoffDelays]

/-- Success of `_postPartWithRetry` on the first attempt, stated against the
entry state (the `attempts[p] = 0` initialisation collapses into the later
assignment and deletion). -/
theorem postPartWithRetry_success (transport : Nat → Nat → PostPayload → TransportResult)
    (now : Str) (st : PState) (p : Nat) (lk : Str) (elem : PipelineContentElem)
    (helem : st.contentParts.get? (p - 1) = some elem)
    (hc : st.cancelled = false)
    (hp1 : 1 ≤ p) (hpT : p ≤ st.manifest.total_parts)
    (hlen : st.manifest.parts.length = st.manifest.total_parts)
    (hcm : exceptOk (compactManifestForPost st.manifest p) = true)
    (hroot : p = 1 ∨ jsFalsyOptStr st.rootPermlink = false)
    (htr : ∀ a pay, transport p a pay = TransportResult.ok (some ⟨lk⟩))
    (hlk : lk ≠ []) :
    ∃ st', postPartWithRetry transport now st p =
        .ok (st', { success := true, error := none, pausedFlag := false }, [], 1) ∧
      st'.currentPart = st.currentPart ∧
      st'.cancelled = false ∧
      st'.paused = st.paused ∧
      st'.contentParts = st.contentParts ∧
      st'.author = st.author ∧
      (∀ j, j ≠ p → st'.attempts j = st.attempts j) ∧
      st'.attempts p = none ∧
      manifestStaticEq st'.manifest st.manifest ∧
      st'.manifest.parts.length = st.manifest.parts.length ∧
      st'.rootPermlink = (if p = 1 then some lk else st.rootPermlink) ∧
      st'.manifest.parts[p - 1]? = some (postedRecord p lk st.author now) ∧
      (∀ j, j + 1 < p → st'.manifest.parts[j]? = (st.manifest.parts[j]?).map
        (fun q => if q.status ≠ "posted".toList then
          { q with status := "posted".toList } else q)) := by
  simp only [postPartWithRetry, helem]
  by_cases hfa : jsFalsyAttempt (st.attempts p) = true
  · simp only [hfa, if_true]
    obtain ⟨st', heq, f1, f2, f3, f4, f5, f6, f7, f8, f9, f10, f11, f12, f13⟩ :=
      postPartAttempts_success transport now p elem.contentField RETRY_maxAttempts 1
        { st with attempts := attemptsSet st.attempts p 0 } lk (by decide) hc
        (by decide) hp1 hpT hlen hcm hroot htr hlk
    refine ⟨st', by rw [heq], f1, f2, f3, f4, f5, ?_, f8, f9, f10, f11, f12, f13⟩
    intro j hj
    have := f7 j hj
    simpa [attemptsSet, hj] using this
  · simp only [hfa, Bool.false_eq_true, if_false]
    obtain ⟨st', heq, f1, f2, f3, f4, f5, f6, f7, f8, f9, f10, f11, f12, f13⟩ :=
      postPartAttempts_success transport now p elem.contentField RETRY_maxAttempts 1
        st lk (by decide) hc (by decide) hp1 hpT hlen hcm hroot htr hlk
    exact ⟨st', by rw [heq], f1, f2, f3, f4, f5, f7, f8, f9, f10, f11, f12, f13⟩

/-- Outcome of `_postPartWithRetry` when every transport attempt for the
part fails transiently: three attempts, sleeps of 1000 and 3000 ms, then
paused. -/
theorem postPartWithRetry_transient_run (transport : Nat → Nat → PostPayload → TransportResult)
    (now : Str) (st : PState) (n : Nat) (elem : PipelineContentElem) (msg : Str)
    (helem : st.contentParts.get? (n - 1) = some elem)
    (hc : st.cancelled = false)
    (hcm : exceptOk (compactManifestForPost st.manifest n) = true)
    (hroot : n = 1 ∨ jsFalsyOptStr st.rootPermlink = false)
    (htr : ∀ a pay, transport n a pay = TransportResult.err msg)
    (hclass : classifyError msg = .transient) :
    postPartWithRetry transport now st n =
      .ok ({ manifest := st.manifest, contentParts := st.contentParts,
             author := st.author, currentPart := st.currentPart,
             attempts := attemptsSet st.attempts n 3,
             cancelled := false, paused := true,
             errors := st.errors ++
               [{ partNumber := n, attempt := 1, error := msg, timestamp := now }] ++
               [{ partNumber := n, attempt := 2, error := msg, timestamp := now }] ++
               [{ partNumber := n, attempt := 3, error := msg, timestamp := now }],
             rootPermlink := st.rootPermlink },
           { success := false, error := some msg, pausedFlag := true },
           [1000, 3000], 3) := by
  simp only [postPartWithRetry, helem]
  by_cases hfa : jsFalsyAttempt (st.attempts n) = true
  · simp only [hfa, if_true]
    rw [postPartAttempts_transient_run transport now n elem.contentField
      { st with attempts := attemptsSet st.attempts n 0 } msg hc hcm hroot htr hclass]
    simp [attemptsSet_set]
  · simp only [hfa, Bool.false_eq_true, if_false]
    rw [postPartAttempts_transient_run transport now n elem.contentField
      st msg hc hcm hroot htr hclass]

/-- Outcome of `_postPartWithRetry` when the first transport attempt fails
with a permanently-classified error: a single attempt, no backoff sleep,
immediate failure (not paused). -/
theorem postPartWithRetry_permanent_run (transport : Nat → Nat → PostPayload → TransportResult)
    (now : Str) (st : PState) (n : Nat) (elem : PipelineContentElem) (msg : Str)
    (helem : st.contentParts.get? (n - 1) = some elem)
    (hc : st.cancelled = false)
    (hcm : exceptOk (compactManifestForPost st.manifest n) = true)
    (hroot : n = 1 ∨ jsFalsyOptStr st.rootPermlink = false)
    (htr : ∀ pay, transport n 1 pay = TransportResult.err msg)
    (hclass : classifyError msg = .permanent) :
    postPartWithRetry transport now st n =
      .ok ({ manifest := st.manifest, contentParts := st.contentParts,
             author := st.author, currentPart := st.currentPart,
             attempts := attemptsSet st.attempts n 1,
             cancelled := false, paused := st.paused,
             errors := st.errors ++
               [{ partNumber := n, attempt := 1, error := msg, timestamp := now }],
             rootPermlink := st.rootPermlink },
           { success := false, error := some msg, pausedFlag := false }, [], 1) := by
  simp only [postPartWithRetry, helem]
  by_cases hfa : jsFalsyAttempt (st.attempts n) = true
  · simp only [hfa, if_true]
    rw [postPartAttempts_permanent transport now n elem.contentField
      RETRY_maxAttempts 1 { st with attempts := attemptsSet st.attempts n 0 } msg
      (by decide) hc hcm hroot htr hclass]
    simp [attemptsSet_set]
  · simp only [hfa, Bool.false_eq_true, if_false]
    rw [postPartAttempts_permanent transport now n elem.contentField
      RETRY_maxAttempts 1 st msg (by decide) hc hcm hroot htr hclass]

/-- The posting loop from any reachable state up to part `n`, under a
transport that succeeds (with non-empty permlinks) strictly below part `n`
and fails transiently on every attempt at part `n`: parts below `n` are
posted with their locators, and at part `n` the pipeline makes three
attempts with backoff sleeps of 1000 and 3000 ms, then pauses with the
pointer still at `n`. -/
theorem startLoop_transient_spec (transport : Nat → Nat → PostPayload → TransportResult)
    (now : Str) (n : Nat) (m : Manifest) (cps : List PipelineContentElem)
    (author : Str) (plink : Nat → Str) (msg : Str)
    (hn1 : 1 ≤ n) (hnT : n ≤ m.total_parts)
    (hcpslen : cps.length = m.total_parts)
    (hok : ∀ p, 1 ≤ p → p < n → ∀ a pay, transport p a pay =
      TransportResult.ok (some ⟨plink p⟩))
    (hplink : ∀ p, 1 ≤ p → p < n → plink p ≠ [])
    (herr : ∀ a pay, transport n a pay = TransportResult.err msg)
    (hclass : classifyError msg = .transient)
    (hcms : ∀ p, 1 ≤ p → p ≤ n → exceptOk (compactManifestForPost m p) = true) :
    ∀ (fuel : Nat) (st : PState),
      st.cancelled = false → st.paused = false →
      st.contentParts = cps → st.author = author →
      manifestStaticEq st.manifest m →
      st.manifest.parts.length = m.total_parts →
      1 ≤ st.currentPart → st.currentPart ≤ n →
      (2 ≤ st.currentPart → st.rootPermlink = some (plink 1)) →
      (∀ i, 1 ≤ i → i < st.currentPart →
        st.manifest.parts[i - 1]? = some (postedRecord i (plink i) author now)) →
      n + 1 - st.currentPart < fuel →
      ∃ stF logs,
        startLoop transport now fuel st = (stF, .partFailed n msg, logs) ∧
        stF.paused = true ∧ stF.cancelled = false ∧
        stF.currentPart = n ∧
        stF.attempts n = some 3 ∧
        manifestStaticEq stF.manifest m ∧
        (∀ i, 1 ≤ i → i < n →
          stF.manifest.parts[i - 1]? = some (postedRecord i (plink i) author now)) ∧
        logs.find? (fun l => l.part == n) =
          some { part := n, retrySleeps := [1000, 3000], transportCalls := 3,
                 cooldownSleeps := [] } := by
  intro fuel
  induction fuel with
  | zero =>
    intro st _ _ _ _ _ _ _ hcurn _ _ hfuel
    exact absurd hfuel (by omega)
  | succ f ih =>
    intro st hc hp hcps hauth hstat hlen hcur1 hcurn hroot2 hbelow hfuel
    have htot : st.manifest.total_parts = m.total_parts := hstat.2.2.2.2.1
    have hnotdone : ¬ (st.currentPart > st.manifest.total_parts) := by omega
    have helem : ∃ elem, st.contentParts.get? (st.currentPart - 1) = some elem := by
      cases hcg : st.contentParts.get? (st.currentPart - 1) with
      | none =>
        have := List.get?_eq_none.mp hcg
        rw [hcps, hcpslen] at this
        omega
      | some elem => exact ⟨elem, rfl⟩
    obtain ⟨elem, helem⟩ := helem
    have hcmcur : exceptOk (compactManifestForPost st.manifest st.currentPart) = true := by
      rw [compactManifestForPost_staticEq st.currentPart hstat]
      exact hcms st.currentPart hcur1 hcurn
    have hrootcur : st.currentPart = 1 ∨ jsFalsyOptStr st.rootPermlink = false := by
      by_cases h1 : st.currentPart = 1
      · exact Or.inl h1
      · right
        have h2 : 2 ≤ st.currentPart := by omega
        rw [hroot2 h2]
        have hne : plink 1 ≠ [] := hplink 1 (by omega) (by omega)
        simp [jsFalsyOptStr, hne]
    by_cases hcn : st.currentPart = n
    · -- the failing part: three transient attempts, then pause
      subst hcn
      have hrun := postPartWithRetry_transient_run transport now st st.currentPart
        elem msg helem hc hcmcur hrootcur herr hclass
      refine
        ⟨{ manifest := st.manifest,
           contentParts := st.contentParts,
           author := st.author,
           currentPart := st.currentPart,
           attempts := attemptsSet st.attempts st.currentPart 3,
           cancelled := false,
           paused := true,
           errors := st.errors ++
             [{ partNumber := st.currentPart, attempt := 1, error := msg,
                timestamp := now }] ++
             [{ partNumber := st.currentPart, attempt := 2, error := msg,
                timestamp := now }] ++
             [{ partNumber := st.currentPart, attempt := 3, error := msg,
                timestamp := now }],
           rootPermlink := st.rootPermlink },
         [{ part := st.currentPart, retrySleeps := [1000, 3000],
            transportCalls := 3, cooldownSleeps := [] }],
         ?_, rfl, rfl, rfl, ?_, hstat, ?_, ?_⟩
      · simp only [startLoop, if_neg hnotdone, hc, Bool.false_eq_true, if_false,
          hp, hrun]
        rfl
      · simp [attemptsSet]
      · intro i hi1 hi2
        exact hbelow i hi1 hi2
      · simp [List.find?]
    · -- a part below n: posts successfully, cooldown, advance
      have hlt : st.currentPart < n := by omega
      obtain ⟨st', heq, f1, f2, f3, f4, f5, f6, f7, f8, f9, f10, f11, f12⟩ :=
        postPartWithRetry_success transport now st st.currentPart (plink st.currentPart)
          elem helem hc hcur1 (by omega)
          (by omega : st.manifest.parts.length = st.manifest.total_parts)
          hcmcur hrootcur (hok st.currentPart hcur1 hlt) (hplink st.currentPart hcur1 hlt)
      have hnotlast : ¬ (st'.currentPart = st'.manifest.total_parts) := by
        have := f8.2.2.2.2.1
        omega
      have hroot2' : 2 ≤ st'.currentPart + 1 → st'.rootPermlink = some (plink 1) := by
        intro _
        rw [f10]
        by_cases h1 : st.currentPart = 1
        · rw [if_pos h1, h1]
        · rw [if_neg h1]
          exact hroot2 (by omega)
      have hbelow' : ∀ i, 1 ≤ i → i < st'.currentPart + 1 →
          st'.manifest.parts[i - 1]? = some (postedRecord i (plink i) author now) := by
        intro i hi1 hi2
        rw [f1] at hi2
        by_cases hieq : i = st.currentPart
        · subst hieq
          rw [f11, hauth]
        · have hilt : i < st.currentPart := by omega
          have hj := f12 (i - 1) (by omega)
          rw [hj, hbelow i hi1 hilt]
          simp [postedRecord]
      obtain ⟨stF, logs, g0, g1, g2, g3, g4, g5, g6, g7⟩ :=
        ih { st' with currentPart := st'.currentPart + 1 }
          (by simpa using f2) (by simpa [f3] using hp) (by simpa [f4] using hcps)
          (by simpa using f5.trans hauth)
          (by simpa using manifestStaticEq_trans f8 hstat)
          (by simpa [f9] using hlen)
          (by simp) (by simp [f1]; omega)
          (by simpa using hroot2') (by simpa using hbelow')
          (by simp [f1]; omega)
      refine
        ⟨stF,
         { part := st.currentPart, retrySleeps := [],
           transportCalls := 1,
           cooldownSleeps := cooldownLoop st'.cancelled 20 } :: logs,
         ?_, g1, g2, g3, g4, g5, g6, ?_⟩
      · have g0' : startLoop transport now f
            { manifest := st'.manifest, contentParts := st'.contentParts,
              author := st'.author, currentPart := st'.currentPart + 1,
              attempts := st'.attempts, cancelled := false,
              paused := st'.paused, errors := st'.errors,
              rootPermlink := st'.rootPermlink }
            = (stF, StartOutcome.partFailed n msg, logs) := by
          rw [← g0, f2]
        simp only [startLoop, if_neg hnotdone, hc, Bool.false_eq_true, if_false,
          hp, heq]
        simp only [if_neg hnotlast, f2, Bool.false_eq_true, if_false]
        rw [g0']
        simp
      · rw [List.find?]
        have hne : ((st.currentPart : Nat) == n) = false := by
          simp
          omega
        simp only [hne, Bool.false_eq_true, if_false]
        exact g7

/-- The posting loop from any reachable state up to part `n`, under a
transport that succeeds (with non-empty permlinks) strictly below part `n`
and fails with a permanently-classified error on the first attempt at part
`n`: parts below `n` are posted with their locators, and at part `n` the
pipeline makes exactly one attempt with no backoff sleep and returns the
part-failed outcome at once, neither paused nor cancelled. -/
theorem startLoop_permanent_spec (transport : Nat → Nat → PostPayload → TransportResult)
    (now : Str) (n : Nat) (m : Manifest) (cps : List PipelineContentElem)
    (author : Str) (plink : Nat → Str) (msg : Str)
    (hn1 : 1 ≤ n) (hnT : n ≤ m.total_parts)
    (hcpslen : cps.length = m.total_parts)
    (hok : ∀ p, 1 ≤ p → p < n → ∀ a pay, transport p a pay =
      TransportResult.ok (some ⟨plink p⟩))
    (hplink : ∀ p, 1 ≤ p → p < n → plink p ≠ [])
    (herr : ∀ pay, transport n 1 pay = TransportResult.err msg)
    (hclass : classifyError msg = .permanent)
    (hcms : ∀ p, 1 ≤ p → p ≤ n → exceptOk (compactManifestForPost m p) = true) :
    ∀ (fuel : Nat) (st : PState),
      st.cancelled = false → st.paused = false →
      st.contentParts = cps → st.author = author →
      manifestStaticEq st.manifest m →
      st.manifest.parts.length = m.total_parts →
      1 ≤ st.currentPart → st.currentPart ≤ n →
      (2 ≤ st.currentPart → st.rootPermlink = some (plink 1)) →
      (∀ i, 1 ≤ i → i < st.currentPart →
        st.manifest.parts[i - 1]? = some (postedRecord i (plink i) author now)) →
      n + 1 - st.currentPart < fuel →
      ∃ stF logs,
        startLoop transport now fuel st = (stF, .partFailed n msg, logs) ∧
        stF.paused = false ∧ stF.cancelled = false ∧
        stF.currentPart = n ∧
        stF.attempts n = some 1 ∧
        manifestStaticEq stF.manifest m ∧
        (∀ i, 1 ≤ i → i < n →
          stF.manifest.parts[i - 1]? = some (postedRecord i (plink i) author now)) ∧
        logs.find? (fun l => l.part == n) =
          some { part := n, retrySleeps := [], transportCalls := 1,
                 cooldownSleeps := [] } := by
  intro fuel
  induction fuel with
  | zero =>
    intro st _ _ _ _ _ _ _ hcurn _ _ hfuel
    exact absurd hfuel (by omega)
  | succ f ih =>
    intro st hc hp hcps hauth hstat hlen hcur1 hcurn hroot2 hbelow hfuel
    have htot : st.manifest.total_parts = m.total_parts := hstat.2.2.2.2.1
    have hnotdone : ¬ (st.currentPart > st.manifest.total_parts) := by omega
    have helem : ∃ elem, st.contentParts.get? (st.currentPart - 1) = some elem := by
      cases hcg : st.contentParts.get? (st.currentPart - 1) with
      | none =>
        have := List.get?_eq_none.mp hcg
        rw [hcps, hcpslen] at this
        omega
      | some elem => exact ⟨elem, rfl⟩
    obtain ⟨elem, helem⟩ := helem
    have hcmcur : exceptOk (compactManifestForPost st.manifest st.currentPart) = true := by
      rw [compactManifestForPost_staticEq st.currentPart hstat]
      exact hcms st.currentPart hcur1 hcurn
    have hrootcur : st.currentPart = 1 ∨ jsFalsyOptStr st.rootPermlink = false := by
      by_cases h1 : st.currentPart = 1
      · exact Or.inl h1
      · right
        have h2 : 2 ≤ st.currentPart := by omega
        rw [hroot2 h2]
        have hne : plink 1 ≠ [] := hplink 1 (by omega) (by omega)
        simp [jsFalsyOptStr, hne]
    by_cases hcn : st.currentPart = n
    · -- the failing part: one permanent attempt, immediate failure
      subst hcn
      have hrun := postPartWithRetry_permanent_run transport now st st.currentPart
        elem msg helem hc hcmcur hrootcur herr hclass
      refine
        ⟨{ manifest := st.manifest,
           contentParts := st.contentParts,
           author := st.author,
           currentPart := st.currentPart,
           attempts := attemptsSet st.attempts st.currentPart 1,
           cancelled := false,
           paused := st.paused,
           errors := st.errors ++
             [{ partNumber := st.currentPart, attempt := 1, error := msg,
                timestamp := now }],
           rootPermlink := st.rootPermlink },
         [{ part := st.currentPart, retrySleeps := [],
            transportCalls := 1, cooldownSleeps := [] }],
         ?_, hp, rfl, rfl, ?_, hstat, ?_, ?_⟩
      · simp only [startLoop, if_neg hnotdone, hc, Bool.false_eq_true, if_false,
          hp, hrun]
        rfl
      · simp [attemptsSet]
      · intro i hi1 hi2
        exact hbelow i hi1 hi2
      · simp [List.find?]
    · -- a part below n: posts successfully, cooldown, advance
      have hlt : st.currentPart < n := by omega
      obtain ⟨st', heq, f1, f2, f3, f4, f5, f6, f7, f8, f9, f10, f11, f12⟩ :=
        postPartWithRetry_success transport now st st.currentPart (plink st.currentPart)
          elem helem hc hcur1 (by omega)
          (by omega : st.manifest.parts.length = st.manifest.total_parts)
          hcmcur hrootcur (hok st.currentPart hcur1 hlt) (hplink st.currentPart hcur1 hlt)
      have hnotlast : ¬ (st'.currentPart = st'.manifest.total_parts) := by
        have := f8.2.2.2.2.1
        omega
      have hroot2' : 2 ≤ st'.currentPart + 1 → st'.rootPermlink = some (plink 1) := by
        intro _
        rw [f10]
        by_cases h1 : st.currentPart = 1
        · rw [if_pos h1, h1]
        · rw [if_neg h1]
          exact hroot2 (by omega)
      have hbelow' : ∀ i, 1 ≤ i → i < st'.currentPart + 1 →
          st'.manifest.parts[i - 1]? = some (postedRecord i (plink i) author now) := by
        intro i hi1 hi2
        rw [f1] at hi2
        by_cases hieq : i = st.currentPart
        · subst hieq
          rw [f11, hauth]
        · have hilt : i < st.currentPart := by omega
          have hj := f12 (i - 1) (by omega)
          rw [hj, hbelow i hi1 hilt]
          simp [postedRecord]
      obtain ⟨stF, logs, g0, g1, g2, g3, g4, g5, g6, g7⟩ :=
        ih { st' with currentPart := st'.currentPart + 1 }
          (by simpa using f2) (by simpa [f3] using hp) (by simpa [f4] using hcps)
          (by simpa using f5.trans hauth)
          (by simpa using manifestStaticEq_trans f8 hstat)
          (by simpa [f9] using hlen)
          (by simp) (by simp [f1]; omega)
          (by simpa using hroot2') (by simpa using hbelow')
          (by simp [f1]; omega)
      refine
        ⟨stF,
         { part := st.currentPart, retrySleeps := [],
           transportCalls := 1,
           cooldownSleeps := cooldownLoop st'.cancelled 20 } :: logs,
         ?_, g1, g2, g3, g4, g5, g6, ?_⟩
      · have g0' : startLoop transport now f
            { manifest := st'.manifest, contentParts := st'.contentParts,
              author := st'.author, currentPart := st'.currentPart + 1,
              attempts := st'.attempts, cancelled := false,
              paused := st'.paused, errors := st'.errors,
              rootPermlink := st'.rootPermlink }
            = (stF, StartOutcome.partFailed n msg, logs) := by
          rw [← g0, f2]
        simp only [startLoop, if_neg hnotdone, hc, Bool.false_eq_true, if_false,
          hp, heq]
        simp only [if_neg hnotlast, f2, Bool.false_eq_true, if_false]
        rw [g0']
        simp
      · rw [List.find?]
        have hne : ((st.currentPart : Nat) == n) = false := by
          simp
          omega
        simp only [hne, Bool.false_eq_true, if_false]
        exact g7

/-- C5 (amended): for every pipeline run started on a fresh state whose
transport succeeds (with non-empty permlinks) on every part below `n` and
fails with a transiently-classified error on every attempt at part `n`, the
run makes exactly 3 transport attempts at part `n` with backoff sleeps of
1000 and 3000 ms between them (the configured 9000 ms third delay is never
awaited: after the third failed attempt the pipeline pauses instead of
sleeping), then returns the part-failed outcome with the pipeline in the
Paused state (persisted status string paused, not cancelled), the current
part pointer still equal to `n`, the recorded attempt count for part `n`
equal to 3, and every earlier part marked posted with its locators. -/
theorem pipeline_transient_exhaustion_pauses
    (transport : Nat → Nat → PostPayload → TransportResult)
    (now : Str) (n : Nat) (m : Manifest) (cps : List PipelineContentElem)
    (author : Str) (plink : Nat → Str) (msg : Str)
    (hn1 : 1 ≤ n) (hnT : n ≤ m.total_parts)
    (hlen : m.parts.length = m.total_parts)
    (hcpslen : cps.length = m.total_parts)
    (hok : ∀ p, 1 ≤ p → p < n → ∀ a pay, transport p a pay =
      TransportResult.ok (some ⟨plink p⟩))
    (hplink : ∀ p, 1 ≤ p → p < n → plink p ≠ [])
    (herr : ∀ a pay, transport n a pay = TransportResult.err msg)
    (hclass : classifyError msg = .transient)
    (hcms : ∀ p, 1 ≤ p → p ≤ n → exceptOk (compactManifestForPost m p) = true) :
    ∃ stF logs,
      startRun transport now (initialPState m cps author) =
        (stF, .partFailed n msg, logs) ∧
      stF.paused = true ∧ stF.cancelled = false ∧
      pipelineStatus stF = "paused".toList ∧
      stF.currentPart = n ∧
      stF.attempts n = some 3 ∧
      (∀ i, 1 ≤ i → i < n →
        stF.manifest.parts[i - 1]? = some (postedRecord i (plink i) author now)) ∧
      logs.find? (fun l => l.part == n) =
        some { part := n, retrySleeps := [1000, 3000], transportCalls := 3,
               cooldownSleeps := [] } := by
  obtain ⟨stF, logs, g0, g1, g2, g3, g4, g5, g6, g7⟩ :=
    startLoop_transient_spec transport now n m cps author plink msg hn1 hnT
      hcpslen hok hplink herr hclass hcms (m.total_parts + 2)
      (initialPState m cps author)
      rfl rfl rfl rfl (manifestStaticEq_refl m) hlen
      (Nat.le_refl 1) hn1
      (by intro h; have h2 : 2 ≤ 1 := h; omega)
      (by intro i hi1 hi2; have h2 : i < 1 := hi2; omega)
      (by show n + 1 - 1 < m.total_parts + 2; omega)
  refine ⟨stF, logs, g0, g1, g2, ?_, g3, g4, g6, g7⟩
  simp [pipelineStatus, g1, g2]

/-- C6: for every pipeline run started on a fresh state whose transport
succeeds (with non-empty permlinks) on every part below `n` and throws a
permanently-classified (for example authorization-shaped) error on the
first attempt at part `n`, the run terminates in the Failed terminal
immediately: it returns the part-failed outcome after exactly one transport
call, with no backoff sleep awaited, the recorded attempt count for part
`n` equal to 1, and the final state neither paused nor cancelled. -/
theorem pipeline_permanent_error_fails_immediately
    (transport : Nat → Nat → PostPayload → TransportResult)
    (now : Str) (n : Nat) (m : Manifest) (cps : List PipelineContentElem)
    (author : Str) (plink : Nat → Str) (msg : Str)
    (hn1 : 1 ≤ n) (hnT : n ≤ m.total_parts)
    (hlen : m.parts.length = m.total_parts)
    (hcpslen : cps.length = m.total_parts)
    (hok : ∀ p, 1 ≤ p → p < n → ∀ a pay, transport p a pay =
      TransportResult.ok (some ⟨plink p⟩))
    (hplink : ∀ p, 1 ≤ p → p < n → plink p ≠ [])
    (herr : ∀ pay, transport n 1 pay = TransportResult.err msg)
    (hclass : classifyError msg = .permanent)
    (hcms : ∀ p, 1 ≤ p → p ≤ n → exceptOk (compactManifestForPost m p) = true) :
    ∃ stF logs,
      startRun transport now (initialPState m cps author) =
        (stF, .partFailed n msg, logs) ∧
      stF.paused = false ∧ stF.cancelled = false ∧
      stF.currentPart = n ∧
      stF.attempts n = some 1 ∧
      (∀ i, 1 ≤ i → i < n →
        stF.manifest.parts[i - 1]? = some (postedRecord i (plink i) author now)) ∧
      logs.find? (fun l => l.part == n) =
        some { part := n, retrySleeps := [], transportCalls := 1,
               cooldownSleeps := [] } := by
  obtain ⟨stF, logs, g0, g1, g2, g3, g4, g5, g6, g7⟩ :=
    startLoop_permanent_spec transport now n m cps author plink msg hn1 hnT
      hcpslen hok hplink herr hclass hcms (m.total_parts + 2)
      (initialPState m cps author)
      rfl rfl rfl rfl (manifestStaticEq_refl m) hlen
      (Nat.le_refl 1) hn1
      (by intro h; have h2 : 2 ≤ 1 := h; omega)
      (by intro i hi1 hi2; have h2 : i < 1 := hi2; omega)
      (by show n + 1 - 1 < m.total_parts + 2; omega)
  exact ⟨stF, logs, g0, g1, g2, g3, g4, g6, g7⟩

/-- Concrete two-part manifest for the C5 witness run. -/
def c5wM : Manifest :=
  { series_id := "s".toList, version := "1".toList, source_url := "u".toList,
    title := "t".toList, total_parts := 2, root_permlink := none,
    content_hash_full := { sha256 := "h".toList, blake2b := none, md5 := "h".toList },
    tags := [],
    parts := [{ part_number := 1, permlink := none, author := none,
                status := "pending".toList },
              { part_number := 2, permlink := none, author := none,
                status := "pending".toList }] }

/-- Concrete content-part records for the C5 witness run. -/
def c5wCps : List PipelineContentElem :=
  [PipelineContentElem.part
    { partNumber := 1, totalParts := 2, content := "aa".toList,
      byteSize := 2, wordCount := 1, boundary := [] },
   PipelineContentElem.part
    { partNumber := 2, totalParts := 2, content := "bb".toList,
      byteSize := 2, wordCount := 1, boundary := [] }]

/-- Concrete transport for the C5 witness run: part 1 posts, part 2 times
out on every attempt. -/
def c5wTransport : Nat → Nat → PostPayload → TransportResult :=
  fun p _ _ =>
    if p = 1 then TransportResult.ok (some { permlink := "p1".toList })
    else TransportResult.err "timeout".toList

theorem pipeline_transient_exhaustion_pauses_witness :
    ∃ stF logs,
      startRun c5wTransport "T".toList
          (initialPState c5wM c5wCps "alice".toList) =
        (stF, .partFailed 2 "timeout".toList, logs) ∧
      stF.paused = true ∧ stF.cancelled = false ∧
      pipelineStatus stF = "paused".toList ∧
      stF.currentPart = 2 ∧
      stF.attempts 2 = some 3 ∧
      (∀ i, 1 ≤ i → i < 2 →
        stF.manifest.parts[i - 1]? =
          some (postedRecord i "p1".toList "alice".toList "T".toList)) ∧
      logs.find? (fun l => l.part == 2) =
        some { part := 2, retrySleeps := [1000, 3000], transportCalls := 3,
               cooldownSleeps := [] } :=
  pipeline_transient_exhaustion_pauses c5wTransport "T".toList 2 c5wM c5wCps
    "alice".toList (fun _ => "p1".toList) "timeout".toList
    (by decide) (by decide) (by decide) (by decide)
    (by
      intro p hp1 hp2 a pay
      have hp : p = 1 := by omega
      subst hp
      rfl)
    (by intro p _ _; show ("p1".toList : Str) ≠ []; decide)
    (fun a pay => rfl)
    (by decide)
    (by
      intro p hp1 hp2
      have hp : p = 1 ∨ p = 2 := by omega
      rcases hp with h | h <;> subst h <;> decide)

/-- Fresh state of the single-part C5 counterexample run. -/
def c5cSt0 : PState :=
  initialPState
    { series_id := "s".toList, version := "1".toList, source_url := "u".toList,
      title := "t".toList, total_parts := 1, root_permlink := none,
      content_hash_full := { sha256 := "h".toList, blake2b := none,
                             md5 := "h".toList },
      tags := [],
      parts := [{ part_number := 1, permlink := none, author := none,
                  status := "pending".toList }] }
    [PipelineContentElem.part
      { partNumber := 1, totalParts := 1, content := "aa".toList,
        byteSize := 2, wordCount := 1, boundary := [] }]
    "alice".toList

/-- Transport of the C5 counterexample run: every attempt times out. -/
def c5cTransport : Nat → Nat → PostPayload → TransportResult :=
  fun _ _ _ => TransportResult.err "timeout".toList

/-- C5 (counterexample): a run whose transport fails transiently on every
attempt for part 1 makes its 3 attempts with backoff sleeps of exactly
1000 and 3000 ms — the claimed third delay of 9000 ms is never awaited
(after the third failed attempt the pipeline pauses instead of sleeping),
so the recorded delays differ from the claimed 1s, 3s and 9s. -/
theorem pipeline_transient_backoff_counterexample :
    (startRun c5cTransport "T".toList c5cSt0).2.2.map
        (fun l => l.retrySleeps) = [[1000, 3000]] ∧
    (∀ l ∈ (startRun c5cTransport "T".toList c5cSt0).2.2,
      ¬ (9000 ∈ l.retrySleeps)) ∧
    ¬ (([1000, 3000] : List Nat) = [1000, 3000, 9000]) := by
  decide

/-- Concrete transport for the C6 witness run: part 1 posts, part 2 throws
an authorization-shaped error. -/
def c6wTransport : Nat → Nat → PostPayload → TransportResult :=
  fun p _ _ =>
    if p = 1 then TransportResult.ok (some { permlink := "p1".toList })
    else TransportResult.err "unauthorized".toList

theorem pipeline_permanent_error_fails_immediately_witness :
    ∃ stF logs,
      startRun c6wTransport "T".toList
          (initialPState c5wM c5wCps "alice".toList) =
        (stF, .partFailed 2 "unauthorized".toList, logs) ∧
      stF.paused = false ∧ stF.cancelled = false ∧
      stF.currentPart = 2 ∧
      stF.attempts 2 = some 1 ∧
      (∀ i, 1 ≤ i → i < 2 →
        stF.manifest.parts[i - 1]? =
          some (postedRecord i "p1".toList "alice".toList "T".toList)) ∧
      logs.find? (fun l => l.part == 2) =
        some { part := 2, retrySleeps := [], transportCalls := 1,
               cooldownSleeps := [] } :=
  pipeline_permanent_error_fails_immediately c6wTransport "T".toList 2 c5wM
    c5wCps "alice".toList (fun _ => "p1".toList) "unauthorized".toList
    (by decide) (by decide) (by decide) (by decide)
    (by
      intro p hp1 hp2 a pay
      have hp : p = 1 := by omega
      subst hp
      rfl)
    (by intro p _ _; show ("p1".toList : Str) ≠ []; decide)
    (fun pay => rfl)
    (by decide)
    (by
      intro p hp1 hp2
      have hp : p = 1 ∨ p = 2 := by omega
      rcases hp with h | h <;> subst h <;> decide)
